import Mathlib

/-!
Verification development for the BLDC servo control core in
`src/moteus/bldc_servo.cc`.

The ISR tick pipeline (`ISR_DoSense` → `ISR_CalculateCurrentState` →
`ISR_DoControl` with its mode dispatch) is embedded shallowly:

* `float` arithmetic is modelled exactly over `ℚ`.  Fields whose NaN state is
  semantically meaningful in the source (they are tested with `std::isnan`)
  are modelled as `Option ℚ`, with `none` standing for NaN.
* Machine integers are modelled as `ℕ`/`ℤ` with explicit wrapping
  (`% 65536`, `i16`) where the source relies on it.
* Collaborators that live outside `src/` (the cordic/`DqTransform`/
  `InverseDqTransform` of moteus/foc.h, the mjlib PID, the windowed velocity
  filter, the thermistor conversion's ADC source) are treated as per-tick
  oracle inputs: the control/mode logic under verification does not depend on
  their values, and every property proved here is proved for all oracle
  values.
* Hardware constants follow the `MOTEUS_HW_REV >= 3` branch of the source
  (40 kHz interrupt and PWM rate), the rate the specification names.
-/

namespace BldcServoModel

/-- PWM frequency, `kPwmRateHz` for `MOTEUS_HW_REV >= 3`. -/
def kPwmRateHz : ℕ := 40000

/-- Interrupt frequency, `kIntRateHz` for `MOTEUS_HW_REV >= 3`. -/
def kIntRateHz : ℕ := 40000

/-- `constexpr float kRateHz = kIntRateHz`. -/
def kRateHz : ℚ := 40000

/-- `constexpr float kPeriodS = 1.0f / kRateHz`. -/
def kPeriodS : ℚ := 1 / kRateHz

/-- `constexpr float kCurrentSampleTime = 1.85e-6f`. -/
def kCurrentSampleTime : ℚ := 185 / 100000000

/-- `kMinPwm = kCurrentSampleTime / (0.5f / kPwmRateHz)`. -/
def kMinPwm : ℚ := kCurrentSampleTime / ((1 / 2) / (kPwmRateHz : ℚ))

/-- `kMaxPwm = 1.0f - kMinPwm`. -/
def kMaxPwm : ℚ := 1 - kMinPwm

/-- `constexpr int kCalibrateCount = 256`. -/
def kCalibrateCount : ℕ := 256

/-- `kMaxPositionDelta = 28000 / 60 * 65536 / kIntRateHz` with C integer
division (all quantities positive, so ℕ division agrees). -/
def kMaxPositionDelta : ℕ := 28000 / 60 * 65536 / kIntRateHz

/-- `constexpr float kMaxUnconfiguredCurrent = 5.0f`. -/
def kMaxUnconfiguredCurrent : ℚ := 5

/-- Modelled from the spec: `mjlib::base::Limit` is not under `src/`; the
spec uses it as a clamp ("clamped to", "Clamp torque to").  The
out-of-range checks are written the way a C clamp is (`value > max` first),
which matters only when `maxv < minv`. -/
def Limit (value minv maxv : ℚ) : ℚ :=
  if value > maxv then maxv else if value < minv then minv else value

/-- `Threshold` from bldc_servo.cc: zero a value inside `(lower, upper)`. -/
def Threshold (value lower upper : ℚ) : ℚ :=
  if value > lower ∧ value < upper then 0 else value

/-- `Offset` from bldc_servo.cc: signed dead-zone compensation. -/
def Offset (minval blend val : ℚ) : ℚ :=
  if val = 0 then 0
  else if |val| ≥ blend then (if val < 0 then -minval + val else minval + val)
  else (val / blend) * (blend + minval)

/-- `Limit` called with possibly-NaN bounds (`none`), as
`ISR_DoPositionCommon` does with `position_min`/`position_max`: a NaN
bound makes its comparison false, so the value passes through. -/
def LimitOpt (value : ℚ) (minv maxv : Option ℚ) : ℚ :=
  match maxv with
  | some mx =>
    if value > mx then mx
    else
      match minv with
      | some mn => if value < mn then mn else value
      | none => value
  | none =>
    match minv with
    | some mn => if value < mn then mn else value
    | none => value

/-- Reinterpretation of an integer as `int16_t` (two's complement), as the
source's `static_cast<int16_t>` of a wider value. -/
def i16 (x : ℤ) : ℤ := (x + 32768) % 65536 - 32768

/-- `std::round`: round half away from zero. -/
def roundHalfAway (x : ℚ) : ℤ := if 0 ≤ x then ⌊x + 1 / 2⌋ else -⌊-x + 1 / 2⌋

/-- Float-to-`int32_t` conversion: truncation toward zero. -/
def truncToward (x : ℚ) : ℤ := if 0 ≤ x then ⌊x⌋ else ⌈x⌉

/-- The mode enumeration of BldcServo (the `kNumModes` sentinel is omitted;
the source asserts it unreachable). -/
inductive Mode
  | kStopped
  | kFault
  | kEnabling
  | kCalibrating
  | kCalibrationComplete
  | kPwm
  | kVoltage
  | kVoltageFoc
  | kVoltageDq
  | kCurrent
  | kPosition
  | kPositionTimeout
  | kZeroVelocity
  | kStayWithinBounds
deriving DecidableEq, Repr

/-- The error codes (`errc`). -/
inductive Errc
  | kSuccess
  | kPwmCycleOverrun
  | kEncoderFault
  | kCalibrationFault
  | kMotorDriverFault
  | kOverVoltage
  | kOverTemperature
  | kStartOutsideLimit
  | kMotorNotConfigured
deriving DecidableEq, Repr

/-- `torque_on()` from bldc_servo.cc. -/
def torqueOn : Mode → Bool
  | Mode.kFault => false
  | Mode.kCalibrating => false
  | Mode.kCalibrationComplete => false
  | Mode.kEnabling => false
  | Mode.kStopped => false
  | Mode.kPwm => true
  | Mode.kVoltage => true
  | Mode.kVoltageFoc => true
  | Mode.kVoltageDq => true
  | Mode.kCurrent => true
  | Mode.kPosition => true
  | Mode.kPositionTimeout => true
  | Mode.kZeroVelocity => true
  | Mode.kStayWithinBounds => true

/-- The `position_pid_active` predicate inside `ISR_ClearPid`. -/
def positionPidActive : Mode → Bool
  | Mode.kPosition => true
  | Mode.kPositionTimeout => true
  | Mode.kZeroVelocity => true
  | Mode.kStayWithinBounds => true
  | _ => false

/-- The `current_pid_active` predicate inside `ISR_ClearPid`. -/
def currentPidActive : Mode → Bool
  | Mode.kCurrent => true
  | Mode.kPosition => true
  | Mode.kPositionTimeout => true
  | Mode.kZeroVelocity => true
  | Mode.kStayWithinBounds => true
  | _ => false

/-- A triple of per-phase values (`Vec3`). -/
structure Vec3 where
  a : ℚ
  b : ℚ
  c : ℚ
deriving DecidableEq, Repr

/-- The motor configuration fields the ISR reads.  `torque_constant` caches
the value `UpdateConfig` derives (its derivation involves `kPi`, which is
irrational, so the cached value is taken as configuration here). -/
structure Motor where
  poles : ℕ
  invert : Bool
  position_offset : ℤ
  unwrapped_position_scale : ℚ
  resistance_ohm : ℚ
  v_per_hz : ℚ
deriving DecidableEq, Repr

/-- The servo configuration fields the ISR reads.  `adc_scale` and
`torque_constant` are the values cached by `UpdateConfig`. -/
structure Config where
  v_scale_V : ℚ
  max_voltage : ℚ
  fault_temperature : ℚ
  derate_temperature : ℚ
  derate_current_A : ℚ
  max_current_A : ℚ
  position_derate : ℚ
  feedforward_scale : ℚ
  pwm_min : ℚ
  pwm_min_blend : ℚ
  velocity_threshold : ℚ
  flux_brake_min_voltage : ℚ
  flux_brake_resistance_ohm : ℚ
  default_timeout_s : ℚ
  timeout_max_torque_Nm : ℚ
  adc_scale : ℚ
  torque_constant : ℚ
deriving DecidableEq, Repr

/-- `servopos` configuration: optional position limits (NaN = unset). -/
structure PositionConfig where
  position_min : Option ℚ
  position_max : Option ℚ
deriving DecidableEq, Repr

/-- `CommandData`.  One-shot fields (`position`, `set_position`,
`rezero_position`, and `timeout_s` once propagated) are consumed by the ISR,
so the command record is part of the mutable machine state. -/
structure CommandData where
  mode : Mode
  position : Option ℚ
  velocity : ℚ
  max_torque_Nm : ℚ
  feedforward_Nm : ℚ
  kp_scale : ℚ
  kd_scale : ℚ
  stop_position : Option ℚ
  timeout_s : Option ℚ
  pwm : Vec3
  phase_v : Vec3
  d_V : ℚ
  q_V : ℚ
  i_d_A : ℚ
  i_q_A : ℚ
  theta : ℚ
  voltage : ℚ
  set_position : Option ℚ
  rezero_position : Option ℚ
  bounds_min : Option ℚ
  bounds_max : Option ℚ
deriving DecidableEq, Repr

/-- The ISR-owned `Status` fields the modelled pipeline writes. -/
structure Status where
  mode : Mode
  fault : Errc
  adc_cur1_raw : ℕ
  adc_cur2_raw : ℕ
  adc_cur3_raw : ℕ
  adc_voltage_sense_raw : ℕ
  adc_fet_temp_raw : ℕ
  adc_cur1_offset : ℕ
  adc_cur2_offset : ℕ
  adc_cur3_offset : ℕ
  position_raw : ℕ
  position : ℕ
  unwrapped_position_raw : ℤ
  unwrapped_position : ℚ
  velocity : ℚ
  cur1_A : ℚ
  cur2_A : ℚ
  cur3_A : ℚ
  bus_V : ℚ
  filt_bus_V : Option ℚ
  filt_1ms_bus_V : Option ℚ
  fet_temp_C : ℚ
  d_A : ℚ
  q_A : ℚ
  torque_Nm : ℚ
  timeout_s : Option ℚ
  control_position : Option ℚ
  position_to_set : Option ℚ
  rezeroed : Bool
deriving DecidableEq, Repr

/-- The full machine state the ISR owns: status, the active command slot
(`current_data_`), the calibration accumulators, and the startup counter
published by `PollMillisecond`. -/
structure State where
  status : Status
  cmd : CommandData
  calibrate_adc1 : ℕ
  calibrate_adc2 : ℕ
  calibrate_adc3 : ℕ
  calibrate_count : ℕ
  startup_count : ℕ
deriving DecidableEq, Repr

/-- The per-tick outputs: the `Control` telemetry fields plus the external
effects (duty emission via `ISR_DoPwmControl`, raw zeroing of the CCR
registers, `Power`/`Enable` calls).  `pwm = some v` means the three duty
fractions of `control_.pwm` were written (scaled by `pwm_counts_`, with the
documented output-2/output-3 swap) to the timer compare registers. -/
structure Control where
  i_d_A : ℚ
  i_q_A : ℚ
  d_V : ℚ
  q_V : ℚ
  torque_Nm : ℚ
  pwm : Option Vec3
  zeroed : Bool
  power : Option Bool
  enable : Option Bool
deriving DecidableEq, Repr

/-- `control_.Clear()`. -/
def Control.clear : Control :=
  { i_d_A := 0, i_q_A := 0, d_V := 0, q_V := 0, torque_Nm := 0,
    pwm := none, zeroed := false, power := none, enable := none }

/-- The per-tick inputs: sensor readings plus the oracle values standing for
the out-of-`src/` collaborators (foc.h transforms, mjlib PID, windowed
velocity filter, thermistor conversion).  `newCmd` is a command published by
the non-RT context (`Command`) since the previous tick. -/
structure Input where
  newCmd : Option CommandData
  monitorHigh : Bool
  driverFault : Bool
  adcCur1 : ℕ
  adcCur2 : ℕ
  adcCur3 : ℕ
  adcVoltage : ℕ
  adcFetTemp : ℕ
  fetTempC : ℚ
  encoderRaw : ℕ
  dq_d : ℚ
  dq_q : ℚ
  idt : Vec3
  idtFoc : Vec3
  pidPos : ℚ
  pidD : ℚ
  pidQ : ℚ
  velocity : ℚ
deriving DecidableEq, Repr

/-- The encoder value after the invert transform:
`status_.position = invert ? (65536 - position_raw) : position_raw`
in `uint16_t` arithmetic. -/
def observedPosition (m : Motor) (raw : ℕ) : ℕ :=
  if m.invert then (65536 - raw % 65536) % 65536 else raw % 65536

/-- `ISR_DoSense`: the sample stage of one tick.  The overrun-monitor check,
the one-shot command consumption (`rezero_position`, `timeout_s`), the ADC
reads, the encoder read with the `kEncoderFault` delta check, and the
unwrapped-position update (rezero via `position_to_set`, else signed `int16`
delta accumulation).  The windowed velocity filter and the thermistor
interpolation feed only telemetry values no modelled logic reads, so their
outputs are the oracles `i.velocity` and `i.fetTempC`. -/
def doSense (m : Motor) (s : State) (i : Input) : State :=
  let st := s.status
  let mf1 : Mode × Errc :=
    if st.mode ≠ Mode.kFault ∧ i.monitorHigh = true then
      (Mode.kFault, Errc.kPwmCycleOverrun)
    else (st.mode, st.fault)
  let pts : Option ℚ :=
    match s.cmd.rezero_position with
    | some r => some r
    | none => st.position_to_set
  let rez : Bool :=
    match s.cmd.rezero_position with
    | some _ => true
    | none => st.rezeroed
  let copyTimeout : Prop := s.cmd.timeout_s = none ∨ s.cmd.timeout_s ≠ some 0
  let stTimeout : Option ℚ := if copyTimeout then s.cmd.timeout_s else st.timeout_s
  let cmdTimeout : Option ℚ := if copyTimeout then some 0 else s.cmd.timeout_s
  let old_position := st.position
  let pos := observedPosition m i.encoderRaw
  let delta : ℤ := i16 ((pos : ℤ) - (old_position : ℤ))
  let mf2 : Mode × Errc :=
    if mf1.1 ≠ Mode.kStopped ∧ mf1.1 ≠ Mode.kFault ∧ delta.natAbs > kMaxPositionDelta then
      (Mode.kFault, Errc.kEncoderFault)
    else mf1
  let rezeroNow : Prop := pts.isSome = true ∧ s.startup_count > 10
  let unwrappedRaw : ℤ :=
    if rezeroNow then
      let zero_position : ℤ :=
        i16 ((pos : ℤ) + m.position_offset * (if m.invert then -1 else 1))
      let error : ℚ :=
        pts.getD 0 - (zero_position : ℚ) * m.unwrapped_position_scale / 65536
      let integral_offsets : ℤ := roundHalfAway (error / m.unwrapped_position_scale)
      zero_position + integral_offsets * 65536
    else st.unwrapped_position_raw + delta
  let ptsAfter : Option ℚ := if rezeroNow then none else pts
  { s with
    status := { st with
      mode := mf2.1,
      fault := mf2.2,
      position_to_set := ptsAfter,
      rezeroed := rez,
      timeout_s := stTimeout,
      adc_cur1_raw := i.adcCur1 % 4096,
      adc_cur2_raw := i.adcCur2 % 4096,
      adc_cur3_raw := i.adcCur3 % 4096,
      adc_voltage_sense_raw := i.adcVoltage % 4096,
      adc_fet_temp_raw := i.adcFetTemp % 4096,
      position_raw := i.encoderRaw % 65536,
      position := pos,
      unwrapped_position_raw := unwrappedRaw,
      unwrapped_position := (unwrappedRaw : ℚ) * m.unwrapped_position_scale / 65536,
      velocity := i.velocity,
      fet_temp_C := i.fetTempC },
    cmd := { s.cmd with rezero_position := none, timeout_s := cmdTimeout } }

/-- `ISR_UpdateFilteredBusV`: first-order IIR, seeded by the first sample. -/
def updateFilteredBusV (busV : ℚ) (filtered : Option ℚ) (period_s : ℚ) : ℚ :=
  match filtered with
  | none => busV
  | some f =>
    let alpha := 1 / (kRateHz * period_s)
    alpha * busV + (1 - alpha) * f

/-- Modelled from the spec: `TorqueModel::current_to_torque`
(moteus/torque_model.h is not under `src/`).  The spec gives the linear
torque-constant link below `rotation_current_cutoff_A`; the linear region
is modelled, and no claim depends on the cubic region above cutoff. -/
def currentToTorque (torque_constant current : ℚ) : ℚ := torque_constant * current

/-- Modelled from the spec: `TorqueModel::torque_to_current`, the inverse of
the linear region. -/
def torqueToCurrent (torque_constant torque : ℚ) : ℚ := torque / torque_constant

/-- `ISR_CalculateCurrentState`: engineering-unit conversions, the two bus
voltage IIR filters, the DQ transform (foc.h, oracles `dq_d`/`dq_q`), and
the torque estimate gated by `torque_on()` using the mode as it stands
after the sense stage. -/
def calcCurrentState (m : Motor) (cfg : Config) (s : State) (i : Input) : State :=
  let st := s.status
  let busV := (st.adc_voltage_sense_raw : ℚ) * cfg.v_scale_V
  { s with status := { st with
      cur1_A := ((st.adc_cur1_raw : ℚ) - (st.adc_cur1_offset : ℚ)) * cfg.adc_scale,
      cur2_A := ((st.adc_cur2_raw : ℚ) - (st.adc_cur2_offset : ℚ)) * cfg.adc_scale,
      cur3_A := ((st.adc_cur3_raw : ℚ) - (st.adc_cur3_offset : ℚ)) * cfg.adc_scale,
      bus_V := busV,
      filt_bus_V := some (updateFilteredBusV busV st.filt_bus_V (1 / 2)),
      filt_1ms_bus_V := some (updateFilteredBusV busV st.filt_1ms_bus_V (1 / 1000)),
      d_A := i.dq_d,
      q_A := i.dq_q,
      torque_Nm :=
        if torqueOn st.mode then
          currentToTorque cfg.torque_constant i.dq_q / m.unwrapped_position_scale
        else 0 } }

/-- `ISR_IsOutsideLimits`. -/
def isOutsideLimits (pc : PositionConfig) (unwrapped : ℚ) : Bool :=
  (match pc.position_min with
   | some mn => decide (unwrapped < mn)
   | none => false) ||
  (match pc.position_max with
   | some mx => decide (unwrapped > mx)
   | none => false)

/-- `ISR_StartCalibrating`: enter `kEnabling`, zero the CCRs, power off,
reset the calibration accumulators. -/
def startCalibrating (s : State) (out : Control) : State × Control :=
  ({ s with
      status := { s.status with mode := Mode.kEnabling },
      calibrate_adc1 := 0, calibrate_adc2 := 0, calibrate_adc3 := 0,
      calibrate_count := 0 },
   { out with zeroed := true, power := some false })

/-- The `kAlwaysClear` effect of `ISR_ClearPid` on the modelled state: the
position PID state and `control_position` are reset (PID internals are
oracles and are not otherwise modelled). -/
def clearPidAlways (st : Status) : Status :=
  { st with control_position := none }

/-- `ISR_MaybeChangeMode` (only called when `data->mode != status_.mode`).
The `kFault`/`kCalibrating`/`kCalibrationComplete` request cases hit a
`MJ_ASSERT(false); return` in the source and leave the state unchanged. -/
def maybeChangeMode (pc : PositionConfig) (s : State) (out : Control) : State × Control :=
  match s.cmd.mode with
  | Mode.kFault | Mode.kCalibrating | Mode.kCalibrationComplete =>
    (s, out)
  | Mode.kStopped =>
    ({ s with status := { s.status with mode := Mode.kStopped } }, out)
  | Mode.kEnabling => (s, out)
  | _ =>
    match s.status.mode with
    | Mode.kFault => (s, out)
    | Mode.kStopped => startCalibrating s out
    | Mode.kEnabling => (s, out)
    | Mode.kCalibrating => (s, out)
    | Mode.kPositionTimeout => (s, out)
    | _ =>
      if (s.cmd.mode = Mode.kPosition ∨ s.cmd.mode = Mode.kStayWithinBounds) ∧
          isOutsideLimits pc s.status.unwrapped_position = true then
        ({ s with status :=
            { s.status with mode := Mode.kFault, fault := Errc.kStartOutsideLimit } },
         out)
      else
        ({ s with status := clearPidAlways { s.status with mode := s.cmd.mode } }, out)

/-- `LimitPwm`. -/
def limitPwm (v : ℚ) : ℚ := Limit v kMinPwm kMaxPwm

/-- `ISR_DoPwmControl`: clamp the duties, write them to the CCR registers
(with the documented output-2/output-3 swap) and switch power on. -/
def doPwmControl (pwm : Vec3) (out : Control) : Control :=
  { out with
    pwm := some { a := limitPwm pwm.a, b := limitPwm pwm.b, c := limitPwm pwm.c },
    power := some true }

/-- `ISR_VoltageToPwm`. -/
def voltageToPwm (cfg : Config) (filtBusV v : ℚ) : ℚ :=
  1 / 2 + Offset cfg.pwm_min cfg.pwm_min_blend (v / filtBusV)

/-- `ISR_DoVoltageControl`. -/
def doVoltageControl (cfg : Config) (filtBusV : ℚ) (voltage : Vec3) (out : Control) : Control :=
  doPwmControl
    { a := voltageToPwm cfg filtBusV voltage.a,
      b := voltageToPwm cfg filtBusV voltage.b,
      c := voltageToPwm cfg filtBusV voltage.c } out

/-- `ISR_DoVoltageFOC`: the clamped voltage goes through the inverse DQ
transform (foc.h, oracle `idtFoc`), then `ISR_DoVoltageControl`. -/
def doVoltageFoc (cfg : Config) (s : State) (i : Input) (out : Control) : Control :=
  doVoltageControl cfg (s.status.filt_bus_V.getD 0) i.idtFoc out

/-- `ISR_DoVoltageDQ`: fault with `kMotorNotConfigured` when `poles == 0`
(returning without any PWM write), otherwise record the d/q voltages, clamp
them, inverse-DQ transform (oracle `idt`) and emit. -/
def doVoltageDQ (m : Motor) (cfg : Config) (s : State) (i : Input)
    (d_V q_V : ℚ) (out : Control) : State × Control :=
  if m.poles = 0 then
    ({ s with status :=
        { s.status with mode := Mode.kFault, fault := Errc.kMotorNotConfigured } },
     out)
  else
    let out := { out with d_V := d_V, q_V := q_V }
    (s, doVoltageControl cfg (s.status.filt_bus_V.getD 0) i.idt out)

/-- The temperature-derate current ceiling computed by
`limit_either_current` inside `ISR_DoCurrent`. -/
def tempLimitA (cfg : Config) (fetT : ℚ) : ℚ :=
  let derate_fraction :=
    (fetT - cfg.derate_temperature) / (cfg.fault_temperature - cfg.derate_temperature)
  min cfg.max_current_A
    (max 0 (derate_fraction * (cfg.derate_current_A - cfg.max_current_A) + cfg.max_current_A))

/-- `limit_either_current` inside `ISR_DoCurrent`. -/
def limitEitherCurrent (cfg : Config) (fetT inp : ℚ) : ℚ :=
  Limit inp (-(tempLimitA cfg fetT)) (tempLimitA cfg fetT)

/-- `limit_q_current` inside `ISR_DoCurrent`: position-limit derating. -/
def limitQCurrent (cfg : Config) (pc : PositionConfig) (unwrapped inp : ℚ) : ℚ :=
  if (match pc.position_max with
      | some mx => decide (unwrapped > mx)
      | none => false) = true ∧ inp > 0 then
    inp * max 0 (1 - (unwrapped - pc.position_max.getD 0) / cfg.position_derate)
  else if (match pc.position_min with
      | some mn => decide (unwrapped < mn)
      | none => false) = true ∧ inp < 0 then
    inp * max 0 (1 - (pc.position_min.getD 0 - unwrapped) / cfg.position_derate)
  else inp

/-- `ISR_DoCurrent`: derate and limit the current setpoints, run the current
PIDs (oracles `pidD`/`pidQ`) plus the feedforward terms, feed
`ISR_DoVoltageDQ`. -/
def doCurrent (m : Motor) (cfg : Config) (pc : PositionConfig) (s : State) (i : Input)
    (i_d_A_in i_q_A_in : ℚ) (out : Control) : State × Control :=
  let i_q_A := limitEitherCurrent cfg s.status.fet_temp_C
      (limitQCurrent cfg pc s.status.unwrapped_position i_q_A_in)
  let i_d_A := limitEitherCurrent cfg s.status.fet_temp_C i_d_A_in
  let out := { out with i_d_A := i_d_A, i_q_A := i_q_A }
  let d_V := cfg.feedforward_scale * i_d_A * m.resistance_ohm + i.pidD
  let q_V := cfg.feedforward_scale * (i_q_A * m.resistance_ohm -
      s.status.velocity * m.v_per_hz / m.unwrapped_position_scale) + i.pidQ
  doVoltageDQ m cfg s i d_V q_V out

/-- The flux-brake d-axis current computed in `ISR_DoPositionCommon`. -/
def fluxBrakeDA (cfg : Config) (filt1msBusV : ℚ) : ℚ :=
  if cfg.flux_brake_min_voltage ≤ 0 then 0
  else
    let error := filt1msBusV - cfg.flux_brake_min_voltage
    if error ≤ 0 then 0
    else error / cfg.flux_brake_resistance_ohm

/-- The `control_position` advance of `ISR_DoPositionCommon`: integrate the
velocity command under the `Limit` clamp, snap to `stop_position` when
moving past it, and zero the velocity command when the position did not
change.  Returns the new `control_position` and the effective velocity
command. -/
def advanceControlPosition (pc : PositionConfig) (cp velocity : ℚ)
    (stop : Option ℚ) : ℚ × ℚ :=
  let old_position := cp
  let cp1 := LimitOpt (cp + velocity / kRateHz) pc.position_min pc.position_max
  let cp2 :=
    match stop with
    | some stp => if (cp1 - stp) * velocity > 0 then stp else cp1
    | none => cp1
  let velocity_command := if cp2 = old_position then 0 else velocity
  (cp2, velocity_command)

/-- `ISR_DoPositionCommon`: seed or overwrite `control_position`, advance it
(`advanceControlPosition`), run the position PID (oracle `pidPos`; the
thresholded measured velocity and the kp/kd scales only feed that oracle),
limit the torque, convert to q-axis current, compute the flux-brake d-axis
current, and feed `ISR_DoCurrent`. -/
def doPositionCommon (m : Motor) (cfg : Config) (pc : PositionConfig)
    (s : State) (i : Input) (max_torque_Nm feedforward_Nm velocity : ℚ)
    (out : Control) : State × Control :=
  let seeded : ℚ × CommandData :=
    match s.cmd.position with
    | some p => (p, { s.cmd with position := none })
    | none =>
      match s.status.control_position with
      | some cp => (cp, s.cmd)
      | none => (s.status.unwrapped_position, s.cmd)
  let adv := advanceControlPosition pc seeded.1 velocity s.cmd.stop_position
  let st := { s.status with control_position := some adv.1 }
  let unlimited_torque_Nm := i.pidPos + feedforward_Nm
  let limited_torque_Nm := Limit unlimited_torque_Nm (-max_torque_Nm) max_torque_Nm
  let out := { out with torque_Nm := limited_torque_Nm }
  let limited_q_A :=
    torqueToCurrent cfg.torque_constant (limited_torque_Nm * m.unwrapped_position_scale)
  let q_A :=
    if m.v_per_hz ≠ 0 then limited_q_A
    else Limit limited_q_A (-kMaxUnconfiguredCurrent) kMaxUnconfiguredCurrent
  let d_A := fluxBrakeDA cfg (st.filt_1ms_bus_V.getD 0)
  doCurrent m cfg pc { s with status := st, cmd := seeded.2 } i d_A q_A out

/-- The bound selection of `ISR_DoStayWithinBounds`. -/
def swbTarget (data : CommandData) (unwrapped : ℚ) : Option ℚ :=
  if (match data.bounds_min with
      | some b => decide (unwrapped < b)
      | none => false) = true then data.bounds_min
  else if (match data.bounds_max with
      | some b => decide (unwrapped > b)
      | none => false) = true then data.bounds_max
  else none

/-- `ISR_DoStayWithinBounds`. -/
def doStayWithinBounds (m : Motor) (cfg : Config) (pc : PositionConfig)
    (s : State) (i : Input) (out : Control) : State × Control :=
  match swbTarget s.cmd s.status.unwrapped_position with
  | none =>
    let st := { s.status with control_position := none }
    let limited_torque_Nm :=
      Limit s.cmd.feedforward_Nm (-s.cmd.max_torque_Nm) s.cmd.max_torque_Nm
    let out := { out with torque_Nm := limited_torque_Nm }
    let limited_q_A :=
      torqueToCurrent cfg.torque_constant (limited_torque_Nm * m.unwrapped_position_scale)
    doCurrent m cfg pc { s with status := st } i 0 limited_q_A out
  | some tp =>
    let cmd := { s.cmd with position := some tp, velocity := 0 }
    doPositionCommon m cfg pc { s with cmd := cmd } i
      s.cmd.max_torque_Nm s.cmd.feedforward_Nm 0 out

/-- `ISR_DoStopped`: disable the driver, power off, zero the CCRs. -/
def doStopped (s : State) (out : Control) : State × Control :=
  (s, { out with enable := some false, power := some false, zeroed := true })

/-- `ISR_DoFault`: power off and zero the CCRs (the mode stays `kFault`). -/
def doFault (out : Control) : Control :=
  { out with power := some false, zeroed := true }

/-- `ISR_DoCalibrating`: accumulate the three raw currents; on the 256th
sample average them (`uint16_t` cast is exact: each sum is at most
256·4095), verify each average within 200 counts of 2048, then either fault
with `kCalibrationFault` or store the offsets and enter
`kCalibrationComplete`. -/
def doCalibrating (s : State) : State :=
  let s := { s with
    calibrate_adc1 := s.calibrate_adc1 + s.status.adc_cur1_raw,
    calibrate_adc2 := s.calibrate_adc2 + s.status.adc_cur2_raw,
    calibrate_adc3 := s.calibrate_adc3 + s.status.adc_cur3_raw,
    calibrate_count := (s.calibrate_count + 1) % 65536 }
  if s.calibrate_count < kCalibrateCount then s
  else
    let new_adc1_offset := s.calibrate_adc1 / kCalibrateCount
    let new_adc2_offset := s.calibrate_adc2 / kCalibrateCount
    let new_adc3_offset := s.calibrate_adc3 / kCalibrateCount
    if 200 < ((new_adc1_offset : ℤ) - 2048).natAbs ∨
       200 < ((new_adc2_offset : ℤ) - 2048).natAbs ∨
       200 < ((new_adc3_offset : ℤ) - 2048).natAbs then
      { s with status :=
          { s.status with mode := Mode.kFault, fault := Errc.kCalibrationFault } }
    else
      { s with status := { s.status with
          adc_cur1_offset := new_adc1_offset,
          adc_cur2_offset := new_adc2_offset,
          adc_cur3_offset := new_adc3_offset,
          mode := Mode.kCalibrationComplete } }

/-- The one-shot `set_position` consumption at the top of `ISR_DoControl`
(when `set_position` is unset the write-back of `none` is the value already
there). -/
def setPositionStep (s : State) : State :=
  { s with
    status := { s.status with unwrapped_position_raw :=
      match s.cmd.set_position with
      | some sp => truncToward (sp * 65536)
      | none => s.status.unwrapped_position_raw },
    cmd := { s.cmd with set_position := none } }

/-- The timeout countdown of `ISR_DoControl`: a finite positive
`status_.timeout_s` is decremented by `kPeriodS` and floored at zero. -/
def timeoutDecStep (s : State) : State :=
  { s with status := { s.status with timeout_s :=
      match s.status.timeout_s with
      | some t => if t > 0 then some (max 0 (t - kPeriodS)) else some t
      | none => none } }

/-- The mode change request of `ISR_DoControl`: `ISR_MaybeChangeMode` runs
only when the commanded mode differs from the current one. -/
def modeChangeStep (pc : PositionConfig) (s : State) (out : Control) : State × Control :=
  if s.cmd.mode ≠ s.status.mode then maybeChangeMode pc s out else (s, out)

/-- The mode/fault pair after the persistent fault conditions of
`ISR_DoControl`, checked in source order (driver fault, then overvoltage,
then overtemperature, each overwriting `status_.fault`), and only outside
`kStopped`/`kFault`. -/
def persistentFaultMF (cfg : Config) (i : Input) (mode : Mode) (fault : Errc)
    (busV fetT : ℚ) : Mode × Errc :=
  if mode ≠ Mode.kStopped ∧ mode ≠ Mode.kFault then
    let mf := if i.driverFault then (Mode.kFault, Errc.kMotorDriverFault)
      else (mode, fault)
    let mf := if busV > cfg.max_voltage then (Mode.kFault, Errc.kOverVoltage)
      else mf
    let mf := if fetT > cfg.fault_temperature then (Mode.kFault, Errc.kOverTemperature)
      else mf
    mf
  else (mode, fault)

/-- The persistent fault conditions of `ISR_DoControl` applied to the
state. -/
def persistentFaultStep (cfg : Config) (i : Input) (s : State) : State :=
  let mf := persistentFaultMF cfg i s.status.mode s.status.fault
      s.status.bus_V s.status.fet_temp_C
  { s with status := { s.status with mode := mf.1, fault := mf.2 } }

/-- The command-timeout transition of `ISR_DoControl`. -/
def positionTimeoutStep (s : State) : State :=
  { s with status := { s.status with mode :=
      if (s.status.mode = Mode.kPosition ∨ s.status.mode = Mode.kStayWithinBounds) ∧
          (match s.status.timeout_s with
           | some t => decide (t ≤ 0)
           | none => false) = true then
        Mode.kPositionTimeout
      else s.status.mode } }

/-- `ISR_ClearPid(kClearIfMode)` as it affects the modelled state. -/
def clearPidIfStep (s : State) : State :=
  { s with status := { s.status with control_position :=
      if (positionPidActive s.status.mode) = true then s.status.control_position
      else none } }

/-- The fault-code reset of `ISR_DoControl` outside `kFault`. -/
def faultResetStep (s : State) : State :=
  { s with status := { s.status with fault :=
      if s.status.mode ≠ Mode.kFault then Errc.kSuccess else s.status.fault } }

/-- The mode dispatch switch at the end of `ISR_DoControl`. -/
def dispatch (m : Motor) (cfg : Config) (pc : PositionConfig)
    (s : State) (i : Input) (out : Control) : State × Control :=
  match s.status.mode with
  | Mode.kStopped => doStopped s out
  | Mode.kFault => (s, doFault out)
  | Mode.kEnabling => (s, out)
  | Mode.kCalibrating => (doCalibrating s, out)
  | Mode.kCalibrationComplete => (s, out)
  | Mode.kPwm => (s, doPwmControl s.cmd.pwm out)
  | Mode.kVoltage => (s, doVoltageControl cfg (s.status.filt_bus_V.getD 0) s.cmd.phase_v out)
  | Mode.kVoltageFoc => (s, doVoltageFoc cfg s i out)
  | Mode.kVoltageDq => doVoltageDQ m cfg s i s.cmd.d_V s.cmd.q_V out
  | Mode.kCurrent => doCurrent m cfg pc s i s.cmd.i_d_A s.cmd.i_q_A out
  | Mode.kPosition =>
    doPositionCommon m cfg pc s i s.cmd.max_torque_Nm s.cmd.feedforward_Nm s.cmd.velocity out
  | Mode.kPositionTimeout =>
    doPositionCommon m cfg pc s i cfg.timeout_max_torque_Nm 0 0 out
  | Mode.kZeroVelocity =>
    doPositionCommon m cfg pc s i cfg.timeout_max_torque_Nm 0 0 out
  | Mode.kStayWithinBounds => doStayWithinBounds m cfg pc s i out

/-- `ISR_DoControl`: one-shot `set_position`, timeout countdown, the mode
change request, the persistent fault checks, the command-timeout
transition, `ISR_ClearPid(kClearIfMode)`, the fault-code reset, and the
mode dispatch. -/
def doControl (m : Motor) (cfg : Config) (pc : PositionConfig)
    (s : State) (i : Input) : State × Control :=
  let sc := modeChangeStep pc (timeoutDecStep (setPositionStep s)) Control.clear
  let s2 :=
    faultResetStep (clearPidIfStep (positionTimeoutStep
      (persistentFaultStep cfg i sc.1)))
  dispatch m cfg pc s2 i sc.2

/-- `Command()` (non-RT producer): the velocity-sign rule toward
`stop_position`, the default-timeout substitution, and the pointer swap
making the record the active command. -/
def commandStep (cfg : Config) (s : State) (dataIn : CommandData) : State :=
  let next := dataIn
  let next :=
    if next.position = none ∧ next.stop_position ≠ none ∧ next.velocity ≠ 0 then
      { next with velocity := |next.velocity| *
          (if next.stop_position.getD 0 > s.status.unwrapped_position then 1 else -1) }
    else next
  let next :=
    if next.timeout_s = some 0 then { next with timeout_s := some cfg.default_timeout_s }
    else next
  { s with cmd := next }

/-- One ISR control tick (`ISR_DoTimer` on a non-skipped phase), preceded by
an optional command publication from the non-RT context. -/
def tick (m : Motor) (cfg : Config) (pc : PositionConfig)
    (s : State) (i : Input) : State × Control :=
  let s :=
    match i.newCmd with
    | some d => commandStep cfg s d
    | none => s
  let s := doSense m s i
  let s := calcCurrentState m cfg s i
  doControl m cfg pc s i

/-- Iterated ticks (final state). -/
def ticks (m : Motor) (cfg : Config) (pc : PositionConfig) :
    State → List Input → State
  | s, [] => s
  | s, i :: rest => ticks m cfg pc (tick m cfg pc s i).1 rest

/-- The signed `int16` encoder delta a tick computes from state `s` and
input `i`. -/
def senseDelta (m : Motor) (s : State) (i : Input) : ℤ :=
  i16 ((observedPosition m i.encoderRaw : ℤ) - (s.status.position : ℤ))

/-- The bus voltage a tick computes from input `i`. -/
def busOf (cfg : Config) (i : Input) : ℚ :=
  ((i.adcVoltage % 4096 : ℕ) : ℚ) * cfg.v_scale_V

/-- An input that triggers none of the per-tick fault conditions from state
`s` and publishes no new command. -/
def benignStep (m : Motor) (cfg : Config) (s : State) (i : Input) : Bool :=
  i.newCmd.isNone && !i.monitorHigh && !i.driverFault &&
  decide (busOf cfg i ≤ cfg.max_voltage) &&
  decide (i.fetTempC ≤ cfg.fault_temperature) &&
  decide ((senseDelta m s i).natAbs ≤ kMaxPositionDelta)

/-- A whole input sequence of benign steps along the run it generates. -/
def benignTrace (m : Motor) (cfg : Config) (pc : PositionConfig) :
    State → List Input → Bool
  | _, [] => true
  | s, i :: rest =>
    benignStep m cfg s i && benignTrace m cfg pc (tick m cfg pc s i).1 rest

/-- A neutral command record used by concrete runs. -/
def cmd0 : CommandData :=
  { mode := Mode.kStopped, position := none, velocity := 0, max_torque_Nm := 10,
    feedforward_Nm := 0, kp_scale := 1, kd_scale := 1, stop_position := none,
    timeout_s := some 0, pwm := { a := 1 / 2, b := 1 / 2, c := 1 / 2 },
    phase_v := { a := 0, b := 0, c := 0 }, d_V := 0, q_V := 0, i_d_A := 0,
    i_q_A := 0, theta := 0, voltage := 0, set_position := none,
    rezero_position := none, bounds_min := none, bounds_max := none }

/-- A quiescent status record used by concrete runs. -/
def status0 : Status :=
  { mode := Mode.kStopped, fault := Errc.kSuccess, adc_cur1_raw := 2048,
    adc_cur2_raw := 2048, adc_cur3_raw := 2048, adc_voltage_sense_raw := 2400,
    adc_fet_temp_raw := 1000, adc_cur1_offset := 2048, adc_cur2_offset := 2048,
    adc_cur3_offset := 2048, position_raw := 0, position := 0,
    unwrapped_position_raw := 0, unwrapped_position := 0, velocity := 0,
    cur1_A := 0, cur2_A := 0, cur3_A := 0, bus_V := 24, filt_bus_V := some 24,
    filt_1ms_bus_V := some 24, fet_temp_C := 20, d_A := 0, q_A := 0,
    torque_Nm := 0, timeout_s := none, control_position := none,
    position_to_set := none, rezeroed := false }

/-- A quiescent machine state used by concrete runs. -/
def state0 : State :=
  { status := status0, cmd := cmd0, calibrate_adc1 := 0, calibrate_adc2 := 0,
    calibrate_adc3 := 0, calibrate_count := 0, startup_count := 100 }

/-- A configured example motor. -/
def motor0 : Motor :=
  { poles := 14, invert := false, position_offset := 0,
    unwrapped_position_scale := 1, resistance_ohm := 1 / 10, v_per_hz := 1 / 10 }

/-- An example servo configuration with benign thresholds. -/
def cfg0 : Config :=
  { v_scale_V := 1 / 100, max_voltage := 30, fault_temperature := 60,
    derate_temperature := 40, derate_current_A := 20, max_current_A := 100,
    position_derate := 1 / 100, feedforward_scale := 1, pwm_min := 1 / 100,
    pwm_min_blend := 1 / 10, velocity_threshold := 0,
    flux_brake_min_voltage := 34, flux_brake_resistance_ohm := 1 / 10,
    default_timeout_s := 1 / 10, timeout_max_torque_Nm := 1, adc_scale := 1 / 100,
    torque_constant := 1 / 10 }

/-- An example position configuration with no limits set. -/
def pcfg0 : PositionConfig := { position_min := none, position_max := none }

/-- A benign example input. -/
def input0 : Input :=
  { newCmd := none, monitorHigh := false, driverFault := false, adcCur1 := 2048,
    adcCur2 := 2048, adcCur3 := 2048, adcVoltage := 2400, adcFetTemp := 1000,
    fetTempC := 20, encoderRaw := 0, dq_d := 0, dq_q := 0,
    idt := { a := 0, b := 0, c := 0 }, idtFoc := { a := 0, b := 0, c := 0 },
    pidPos := 0, pidD := 0, pidQ := 0, velocity := 0 }



theorem kMinPwm_le_kMaxPwm : kMinPwm ≤ kMaxPwm := by
  norm_num [kMinPwm, kMaxPwm, kCurrentSampleTime, kPwmRateHz]

theorem limitPwm_mem (v : ℚ) : kMinPwm ≤ limitPwm v ∧ limitPwm v ≤ kMaxPwm := by
  unfold limitPwm Limit
  split
  next hv => exact ⟨kMinPwm_le_kMaxPwm, le_refl _⟩
  next hv =>
    split
    next hv2 => exact ⟨le_refl _, kMinPwm_le_kMaxPwm⟩
    next hv2 => exact ⟨not_lt.mp hv2, not_lt.mp hv⟩

/-- Every duty triple that this optional CCR write carries is inside
`[kMinPwm, kMaxPwm]`. -/
def pwmBounded (o : Option Vec3) : Prop :=
  ∀ v : Vec3, o = some v →
    (kMinPwm ≤ v.a ∧ v.a ≤ kMaxPwm) ∧ (kMinPwm ≤ v.b ∧ v.b ≤ kMaxPwm) ∧
    (kMinPwm ≤ v.c ∧ v.c ≤ kMaxPwm)

theorem pwmBounded_none : pwmBounded none := by
  intro v hv; cases hv

theorem pwmBounded_doPwmControl (p : Vec3) (out : Control) :
    pwmBounded (doPwmControl p out).pwm := by
  intro v hv
  have hv2 : v = { a := limitPwm p.a, b := limitPwm p.b, c := limitPwm p.c } := by
    simpa [doPwmControl] using hv.symm
  subst hv2
  exact ⟨limitPwm_mem p.a, limitPwm_mem p.b, limitPwm_mem p.c⟩

theorem pwmBounded_doVoltageControl (cfg : Config) (f : ℚ) (volt : Vec3) (out : Control) :
    pwmBounded (doVoltageControl cfg f volt out).pwm :=
  pwmBounded_doPwmControl _ _

theorem pwmBounded_doVoltageFoc (cfg : Config) (s : State) (i : Input) (out : Control) :
    pwmBounded (doVoltageFoc cfg s i out).pwm :=
  pwmBounded_doPwmControl _ _

theorem pwmBounded_doVoltageDQ (m : Motor) (cfg : Config) (s : State) (i : Input)
    (dV qV : ℚ) (out : Control) (h : pwmBounded out.pwm) :
    pwmBounded (doVoltageDQ m cfg s i dV qV out).2.pwm := by
  unfold doVoltageDQ
  split
  · exact h
  · exact pwmBounded_doPwmControl _ _

theorem pwmBounded_doCurrent (m : Motor) (cfg : Config) (pc : PositionConfig)
    (s : State) (i : Input) (dA qA : ℚ) (out : Control) (h : pwmBounded out.pwm) :
    pwmBounded (doCurrent m cfg pc s i dA qA out).2.pwm := by
  unfold doCurrent
  exact pwmBounded_doVoltageDQ _ _ _ _ _ _ _ h

theorem pwmBounded_doPositionCommon (m : Motor) (cfg : Config) (pc : PositionConfig)
    (s : State) (i : Input) (mt ff vel : ℚ) (out : Control) (h : pwmBounded out.pwm) :
    pwmBounded (doPositionCommon m cfg pc s i mt ff vel out).2.pwm := by
  unfold doPositionCommon
  exact pwmBounded_doCurrent _ _ _ _ _ _ _ _ h

theorem pwmBounded_doStayWithinBounds (m : Motor) (cfg : Config) (pc : PositionConfig)
    (s : State) (i : Input) (out : Control) (h : pwmBounded out.pwm) :
    pwmBounded (doStayWithinBounds m cfg pc s i out).2.pwm := by
  unfold doStayWithinBounds
  split
  · exact pwmBounded_doCurrent _ _ _ _ _ _ _ _ h
  · exact pwmBounded_doPositionCommon _ _ _ _ _ _ _ _ _ h

theorem pwmBounded_maybeChangeMode (pc : PositionConfig) (s : State) (out : Control)
    (h : pwmBounded out.pwm) :
    pwmBounded (maybeChangeMode pc s out).2.pwm := by
  unfold maybeChangeMode startCalibrating
  repeat' split
  all_goals exact h

theorem pwmBounded_modeChangeStep (pc : PositionConfig) (s : State) (out : Control)
    (h : pwmBounded out.pwm) :
    pwmBounded (modeChangeStep pc s out).2.pwm := by
  unfold modeChangeStep
  split
  · exact pwmBounded_maybeChangeMode _ _ _ h
  · exact h

theorem pwmBounded_dispatch (m : Motor) (cfg : Config) (pc : PositionConfig)
    (s : State) (i : Input) (out : Control) (h : pwmBounded out.pwm) :
    pwmBounded (dispatch m cfg pc s i out).2.pwm := by
  unfold dispatch
  split
  all_goals first
    | exact h
    | exact pwmBounded_doPwmControl _ _
    | exact pwmBounded_doVoltageControl _ _ _ _
    | exact pwmBounded_doVoltageFoc _ _ _ _
    | exact pwmBounded_doVoltageDQ _ _ _ _ _ _ _ h
    | exact pwmBounded_doCurrent _ _ _ _ _ _ _ _ h
    | exact pwmBounded_doPositionCommon _ _ _ _ _ _ _ _ _ h
    | exact pwmBounded_doStayWithinBounds _ _ _ _ _ _ h

theorem pwmBounded_tick (m : Motor) (cfg : Config) (pc : PositionConfig)
    (s : State) (i : Input) : pwmBounded (tick m cfg pc s i).2.pwm := by
  unfold tick doControl
  exact pwmBounded_dispatch _ _ _ _ _ _
    (pwmBounded_modeChangeStep _ _ _ pwmBounded_none)

theorem doVoltageDQ_position (m : Motor) (cfg : Config) (s : State) (i : Input)
    (dV qV : ℚ) (out : Control) :
    (doVoltageDQ m cfg s i dV qV out).1.status.position = s.status.position := by
  unfold doVoltageDQ; split <;> rfl

theorem doCurrent_position (m : Motor) (cfg : Config) (pc : PositionConfig)
    (s : State) (i : Input) (dA qA : ℚ) (out : Control) :
    (doCurrent m cfg pc s i dA qA out).1.status.position = s.status.position := by
  unfold doCurrent
  exact doVoltageDQ_position _ _ _ _ _ _ _

theorem doPositionCommon_position (m : Motor) (cfg : Config) (pc : PositionConfig)
    (s : State) (i : Input) (mt ff vel : ℚ) (out : Control) :
    (doPositionCommon m cfg pc s i mt ff vel out).1.status.position = s.status.position := by
  simp only [doPositionCommon]
  split <;> rw [doCurrent_position]

theorem doStayWithinBounds_position (m : Motor) (cfg : Config) (pc : PositionConfig)
    (s : State) (i : Input) (out : Control) :
    (doStayWithinBounds m cfg pc s i out).1.status.position = s.status.position := by
  simp only [doStayWithinBounds]
  split
  · rw [doCurrent_position]
  · rw [doPositionCommon_position]

theorem maybeChangeMode_position (pc : PositionConfig) (s : State) (out : Control) :
    (maybeChangeMode pc s out).1.status.position = s.status.position := by
  unfold maybeChangeMode startCalibrating clearPidAlways
  repeat' split
  all_goals rfl

theorem modeChangeStep_position (pc : PositionConfig) (s : State) (out : Control) :
    (modeChangeStep pc s out).1.status.position = s.status.position := by
  unfold modeChangeStep
  split
  · exact maybeChangeMode_position _ _ _
  · rfl

theorem dispatch_position (m : Motor) (cfg : Config) (pc : PositionConfig)
    (s : State) (i : Input) (out : Control) :
    (dispatch m cfg pc s i out).1.status.position = s.status.position := by
  unfold dispatch
  split
  all_goals first
    | rfl
    | rw [doVoltageDQ_position]
    | rw [doCurrent_position]
    | rw [doPositionCommon_position]
    | rw [doStayWithinBounds_position]
    | (simp only [doCalibrating]; repeat' (first | rfl | split))

theorem doControl_position (m : Motor) (cfg : Config) (pc : PositionConfig)
    (s : State) (i : Input) :
    (doControl m cfg pc s i).1.status.position = s.status.position := by
  simp only [doControl]
  rw [dispatch_position]
  exact modeChangeStep_position _ _ _

theorem tick_position (m : Motor) (cfg : Config) (pc : PositionConfig)
    (s : State) (i : Input) :
    (tick m cfg pc s i).1.status.position = observedPosition m i.encoderRaw := by
  unfold tick
  rw [doControl_position]
  rfl



/-- The mode of the command the tick will act on: a freshly published
command if one arrives, else the already-active one. -/
def effCmdMode (s : State) (i : Input) : Mode :=
  match i.newCmd with
  | some d => d.mode
  | none => s.cmd.mode

theorem doSense_mode_kFault (m : Motor) (s : State) (i : Input)
    (hm : s.status.mode = Mode.kFault) :
    (doSense m s i).status.mode = Mode.kFault := by
  simp [doSense, hm]

theorem doControl_kFault (m : Motor) (cfg : Config) (pc : PositionConfig)
    (u : State) (i : Input) (hm : u.status.mode = Mode.kFault) :
    ((doControl m cfg pc u i).1.status.mode =
      if u.cmd.mode = Mode.kStopped then Mode.kStopped else Mode.kFault) ∧
    (doControl m cfg pc u i).1.cmd.mode = u.cmd.mode ∧
    (u.cmd.mode ≠ Mode.kStopped →
      (doControl m cfg pc u i).1.status.fault = u.status.fault) := by
  rcases hcm : u.cmd.mode <;>
    simp [doControl, setPositionStep, timeoutDecStep, modeChangeStep,
      maybeChangeMode, persistentFaultStep, persistentFaultMF,
      positionTimeoutStep, clearPidIfStep, faultResetStep, dispatch,
      doStopped, doFault, positionPidActive, hm, hcm]



theorem doSense_fault_kFault (m : Motor) (s : State) (i : Input)
    (hm : s.status.mode = Mode.kFault) :
    (doSense m s i).status.fault = s.status.fault := by
  simp [doSense, hm]

theorem doSense_cmd_mode (m : Motor) (s : State) (i : Input) :
    (doSense m s i).cmd.mode = s.cmd.mode := rfl

theorem calc_cmd (m : Motor) (cfg : Config) (s : State) (i : Input) :
    (calcCurrentState m cfg s i).cmd = s.cmd := rfl

theorem calc_fault (m : Motor) (cfg : Config) (s : State) (i : Input) :
    (calcCurrentState m cfg s i).status.fault = s.status.fault := rfl

theorem commandStep_cmd_mode (cfg : Config) (s : State) (d : CommandData) :
    (commandStep cfg s d).cmd.mode = d.mode := by
  simp [commandStep, apply_ite CommandData.mode]

theorem commandStep_status (cfg : Config) (s : State) (d : CommandData) :
    (commandStep cfg s d).status = s.status := rfl

theorem tick_kFault (m : Motor) (cfg : Config) (pc : PositionConfig)
    (s : State) (i : Input) (hm : s.status.mode = Mode.kFault) :
    ((tick m cfg pc s i).1.status.mode =
      if effCmdMode s i = Mode.kStopped then Mode.kStopped else Mode.kFault) ∧
    (tick m cfg pc s i).1.cmd.mode = effCmdMode s i ∧
    (effCmdMode s i ≠ Mode.kStopped →
      (tick m cfg pc s i).1.status.fault = s.status.fault) := by
  rcases hin : i.newCmd with _ | d
  · have hu := doSense_mode_kFault m s i hm
    have h := doControl_kFault m cfg pc
      (calcCurrentState m cfg (doSense m s i) i) i hu
    have hf := doSense_fault_kFault m s i hm
    simp only [tick, effCmdMode, hin]
    simp only [calc_cmd, doSense_cmd_mode, calc_fault, hf] at h
    exact h
  · have hm2 : (commandStep cfg s d).status.mode = Mode.kFault := hm
    have hu := doSense_mode_kFault m (commandStep cfg s d) i hm2
    have h := doControl_kFault m cfg pc
      (calcCurrentState m cfg (doSense m (commandStep cfg s d) i) i) i hu
    have hf := doSense_fault_kFault m (commandStep cfg s d) i hm2
    simp only [tick, effCmdMode, hin]
    simp only [calc_cmd, doSense_cmd_mode, calc_fault, hf,
      commandStep_cmd_mode, commandStep_status] at h
    exact h

/-- C1: from `kFault`, a tick with a non-`kStopped` active command keeps the
mode `kFault` (over whole runs), and a tick whose active command is
`kStopped` always moves the mode to `kStopped`. -/
theorem C1_kFault_sticky_until_kStopped :
    (∀ (m : Motor) (cfg : Config) (pc : PositionConfig) (s : State) (i : Input),
       s.status.mode = Mode.kFault → effCmdMode s i ≠ Mode.kStopped →
       (tick m cfg pc s i).1.status.mode = Mode.kFault) ∧
    (∀ (m : Motor) (cfg : Config) (pc : PositionConfig) (s : State) (i : Input),
       s.status.mode = Mode.kFault → effCmdMode s i = Mode.kStopped →
       (tick m cfg pc s i).1.status.mode = Mode.kStopped) ∧
    (∀ (m : Motor) (cfg : Config) (pc : PositionConfig) (s : State)
       (is : List Input),
       s.status.mode = Mode.kFault → s.cmd.mode ≠ Mode.kStopped →
       (∀ i ∈ is, ∀ d, i.newCmd = some d → d.mode ≠ Mode.kStopped) →
       (ticks m cfg pc s is).status.mode = Mode.kFault) := by
  refine ⟨?_, ?_, ?_⟩
  · intro m cfg pc s i hm hne
    rw [(tick_kFault m cfg pc s i hm).1, if_neg hne]
  · intro m cfg pc s i hm heq
    rw [(tick_kFault m cfg pc s i hm).1, if_pos heq]
  · intro m cfg pc s is
    induction is generalizing s with
    | nil => intro hm _ _; exact hm
    | cons i rest ih =>
      intro hm hcm hall
      have hne : effCmdMode s i ≠ Mode.kStopped := by
        unfold effCmdMode
        rcases hin : i.newCmd with _ | d
        · exact hcm
        · exact hall i (List.mem_cons_self i rest) d hin
      have ht := tick_kFault m cfg pc s i hm
      simp only [ticks]
      exact ih (tick m cfg pc s i).1
        (by rw [ht.1, if_neg hne])
        (by rw [ht.2.1]; exact hne)
        (fun j hj d hd => hall j (List.mem_cons_of_mem i hj) d hd)

def stateFault : State :=
  { state0 with
    status := { status0 with mode := Mode.kFault, fault := Errc.kOverVoltage },
    cmd := { cmd0 with mode := Mode.kPosition } }

theorem C1_kFault_sticky_until_kStopped_witness :
    (tick motor0 cfg0 pcfg0 stateFault input0).1.status.mode = Mode.kFault ∧
    (tick motor0 cfg0 pcfg0
      { stateFault with cmd := { cmd0 with mode := Mode.kStopped } }
      input0).1.status.mode = Mode.kStopped ∧
    (ticks motor0 cfg0 pcfg0 stateFault [input0]).status.mode = Mode.kFault := by
  refine ⟨?_, ?_, ?_⟩
  · exact C1_kFault_sticky_until_kStopped.1 motor0 cfg0 pcfg0 stateFault input0
      rfl (by intro h; exact Mode.noConfusion h)
  · exact C1_kFault_sticky_until_kStopped.2.1 motor0 cfg0 pcfg0
      { stateFault with cmd := { cmd0 with mode := Mode.kStopped } } input0 rfl rfl
  · exact C1_kFault_sticky_until_kStopped.2.2 motor0 cfg0 pcfg0 stateFault [input0]
      rfl (by intro h; exact Mode.noConfusion h)
      (by
        intro i hi d hd
        rw [List.mem_singleton] at hi
        subst hi
        exact Option.noConfusion hd)



theorem doVoltageDQ_fst (m : Motor) (cfg : Config) (s : State) (i : Input)
    (dV qV : ℚ) (out : Control) (h : m.poles ≠ 0) :
    (doVoltageDQ m cfg s i dV qV out).1 = s := by
  simp [doVoltageDQ, h]

theorem doCurrent_fst (m : Motor) (cfg : Config) (pc : PositionConfig)
    (s : State) (i : Input) (dA qA : ℚ) (out : Control) (h : m.poles ≠ 0) :
    (doCurrent m cfg pc s i dA qA out).1 = s := by
  unfold doCurrent
  exact doVoltageDQ_fst _ _ _ _ _ _ _ h

theorem doPositionCommon_proj (m : Motor) (cfg : Config) (pc : PositionConfig)
    (s : State) (i : Input) (mt ff vel : ℚ) (out : Control) (h : m.poles ≠ 0) :
    (doPositionCommon m cfg pc s i mt ff vel out).1.status.mode = s.status.mode ∧
    (doPositionCommon m cfg pc s i mt ff vel out).1.status.timeout_s = s.status.timeout_s ∧
    (doPositionCommon m cfg pc s i mt ff vel out).1.status.fault = s.status.fault ∧
    (doPositionCommon m cfg pc s i mt ff vel out).1.cmd.mode = s.cmd.mode ∧
    (doPositionCommon m cfg pc s i mt ff vel out).1.cmd.timeout_s = s.cmd.timeout_s := by
  simp only [doPositionCommon]
  split <;> (try split) <;> simp [doCurrent, doVoltageDQ, h]

theorem doStayWithinBounds_proj (m : Motor) (cfg : Config) (pc : PositionConfig)
    (s : State) (i : Input) (out : Control) (h : m.poles ≠ 0) :
    (doStayWithinBounds m cfg pc s i out).1.status.mode = s.status.mode ∧
    (doStayWithinBounds m cfg pc s i out).1.status.timeout_s = s.status.timeout_s ∧
    (doStayWithinBounds m cfg pc s i out).1.status.fault = s.status.fault ∧
    (doStayWithinBounds m cfg pc s i out).1.cmd.mode = s.cmd.mode ∧
    (doStayWithinBounds m cfg pc s i out).1.cmd.timeout_s = s.cmd.timeout_s := by
  simp only [doStayWithinBounds]
  split
  · simp [doCurrent, doVoltageDQ, h]
  next tp htp =>
    exact doPositionCommon_proj m cfg pc
      { s with cmd := { s.cmd with position := some tp, velocity := 0 } } i
      s.cmd.max_torque_Nm s.cmd.feedforward_Nm 0 out h

/-- Outside `kCalibrating`, and with a configured pole count, the mode
dispatch leaves the mode, fault code, timeout, and command mode/timeout
untouched. -/
theorem dispatch_proj (m : Motor) (cfg : Config) (pc : PositionConfig)
    (s : State) (i : Input) (out : Control) (h : m.poles ≠ 0)
    (hnc : s.status.mode ≠ Mode.kCalibrating) :
    (dispatch m cfg pc s i out).1.status.mode = s.status.mode ∧
    (dispatch m cfg pc s i out).1.status.timeout_s = s.status.timeout_s ∧
    (dispatch m cfg pc s i out).1.status.fault = s.status.fault ∧
    (dispatch m cfg pc s i out).1.cmd.mode = s.cmd.mode ∧
    (dispatch m cfg pc s i out).1.cmd.timeout_s = s.cmd.timeout_s := by
  unfold dispatch
  split
  all_goals first
    | (exact absurd (by assumption) hnc)
    | exact ⟨rfl, rfl, rfl, rfl, rfl⟩
    | (refine ⟨?_, ?_, ?_, ?_, ?_⟩ <;> rw [doVoltageDQ_fst _ _ _ _ _ _ _ h])
    | (refine ⟨?_, ?_, ?_, ?_, ?_⟩ <;> rw [doCurrent_fst _ _ _ _ _ _ _ _ h])
    | exact doPositionCommon_proj _ _ _ _ _ _ _ _ _ h
    | exact doStayWithinBounds_proj _ _ _ _ _ _ h



theorem doVoltageDQ_timeout (m : Motor) (cfg : Config) (s : State) (i : Input)
    (dV qV : ℚ) (out : Control) :
    (doVoltageDQ m cfg s i dV qV out).1.status.timeout_s = s.status.timeout_s := by
  unfold doVoltageDQ; split <;> rfl

theorem doCurrent_timeout (m : Motor) (cfg : Config) (pc : PositionConfig)
    (s : State) (i : Input) (dA qA : ℚ) (out : Control) :
    (doCurrent m cfg pc s i dA qA out).1.status.timeout_s = s.status.timeout_s := by
  unfold doCurrent
  exact doVoltageDQ_timeout _ _ _ _ _ _ _

theorem doPositionCommon_timeout (m : Motor) (cfg : Config) (pc : PositionConfig)
    (s : State) (i : Input) (mt ff vel : ℚ) (out : Control) :
    (doPositionCommon m cfg pc s i mt ff vel out).1.status.timeout_s =
      s.status.timeout_s := by
  simp only [doPositionCommon]
  split <;> rw [doCurrent_timeout]

theorem doStayWithinBounds_timeout (m : Motor) (cfg : Config) (pc : PositionConfig)
    (s : State) (i : Input) (out : Control) :
    (doStayWithinBounds m cfg pc s i out).1.status.timeout_s = s.status.timeout_s := by
  simp only [doStayWithinBounds]
  split
  · rw [doCurrent_timeout]
  · rw [doPositionCommon_timeout]

theorem maybeChangeMode_timeout (pc : PositionConfig) (s : State) (out : Control) :
    (maybeChangeMode pc s out).1.status.timeout_s = s.status.timeout_s := by
  unfold maybeChangeMode startCalibrating clearPidAlways
  repeat' split
  all_goals rfl

theorem modeChangeStep_timeout (pc : PositionConfig) (s : State) (out : Control) :
    (modeChangeStep pc s out).1.status.timeout_s = s.status.timeout_s := by
  unfold modeChangeStep
  split
  · exact maybeChangeMode_timeout _ _ _
  · rfl

theorem dispatch_timeout (m : Motor) (cfg : Config) (pc : PositionConfig)
    (s : State) (i : Input) (out : Control) :
    (dispatch m cfg pc s i out).1.status.timeout_s = s.status.timeout_s := by
  unfold dispatch
  split
  all_goals first
    | rfl
    | rw [doVoltageDQ_timeout]
    | rw [doCurrent_timeout]
    | rw [doPositionCommon_timeout]
    | rw [doStayWithinBounds_timeout]
    | (simp only [doCalibrating]; repeat' (first | rfl | split))

/-- The countdown a tick applies to `status_.timeout_s` when the active
command does not refresh it. -/
def timeoutDec : Option ℚ → Option ℚ
  | some t => if t > 0 then some (max 0 (t - kPeriodS)) else some t
  | none => none

theorem doControl_timeout (m : Motor) (cfg : Config) (pc : PositionConfig)
    (u : State) (i : Input) :
    (doControl m cfg pc u i).1.status.timeout_s = timeoutDec u.status.timeout_s := by
  simp only [doControl]
  rw [dispatch_timeout]
  have h := modeChangeStep_timeout pc (timeoutDecStep (setPositionStep u)) Control.clear
  exact h



theorem doSense_mode (m : Motor) (s : State) (i : Input)
    (hmon : i.monitorHigh = false)
    (hdelta : (senseDelta m s i).natAbs ≤ kMaxPositionDelta) :
    (doSense m s i).status.mode = s.status.mode := by
  have h2 : ¬ ((senseDelta m s i).natAbs > kMaxPositionDelta) := not_lt.mpr hdelta
  simp only [senseDelta] at h2
  simp [doSense, hmon, h2]

theorem doSense_fault (m : Motor) (s : State) (i : Input)
    (hmon : i.monitorHigh = false)
    (hdelta : (senseDelta m s i).natAbs ≤ kMaxPositionDelta) :
    (doSense m s i).status.fault = s.status.fault := by
  have h2 : ¬ ((senseDelta m s i).natAbs > kMaxPositionDelta) := not_lt.mpr hdelta
  simp only [senseDelta] at h2
  simp [doSense, hmon, h2]

theorem doSense_timeout (m : Motor) (s : State) (i : Input)
    (h : s.cmd.timeout_s = some 0) :
    (doSense m s i).status.timeout_s = s.status.timeout_s := by
  simp [doSense, h]

theorem doSense_cmd_timeout (m : Motor) (s : State) (i : Input)
    (h : s.cmd.timeout_s = some 0) :
    (doSense m s i).cmd.timeout_s = some 0 := by
  simp [doSense, h]

theorem doControl_kPosition (m : Motor) (cfg : Config) (pc : PositionConfig)
    (u : State) (i : Input) (t : ℚ)
    (hm : u.status.mode = Mode.kPosition)
    (hc : u.cmd.mode = Mode.kPosition)
    (ht : u.status.timeout_s = some t)
    (htp : 0 < t)
    (hdf : i.driverFault = false)
    (hbus : ¬ (u.status.bus_V > cfg.max_voltage))
    (hfet : ¬ (u.status.fet_temp_C > cfg.fault_temperature))
    (hp : m.poles ≠ 0) :
    ((doControl m cfg pc u i).1.status.mode =
      if t - kPeriodS ≤ 0 then Mode.kPositionTimeout else Mode.kPosition) ∧
    (doControl m cfg pc u i).1.status.timeout_s = some (max 0 (t - kPeriodS)) ∧
    (doControl m cfg pc u i).1.cmd.mode = Mode.kPosition ∧
    (doControl m cfg pc u i).1.cmd.timeout_s = u.cmd.timeout_s := by
  have hmc : modeChangeStep pc (timeoutDecStep (setPositionStep u)) Control.clear
      = (timeoutDecStep (setPositionStep u), Control.clear) := by
    simp [modeChangeStep, setPositionStep, timeoutDecStep, hm, hc]
  have hS2 : (faultResetStep (clearPidIfStep (positionTimeoutStep
        (persistentFaultStep cfg i
          (modeChangeStep pc (timeoutDecStep (setPositionStep u)) Control.clear).1)))).status.mode
      = (if t - kPeriodS ≤ 0 then Mode.kPositionTimeout else Mode.kPosition) := by
    rw [hmc]
    simp [faultResetStep, clearPidIfStep, positionTimeoutStep, persistentFaultStep,
      persistentFaultMF, timeoutDecStep, setPositionStep, hm, hc, ht, htp, hdf,
      hbus, hfet, max_le_iff]
  have hnc : (faultResetStep (clearPidIfStep (positionTimeoutStep
        (persistentFaultStep cfg i
          (modeChangeStep pc (timeoutDecStep (setPositionStep u)) Control.clear).1)))).status.mode
      ≠ Mode.kCalibrating := by
    rw [hS2]
    split <;> intro hh <;> exact Mode.noConfusion hh
  have hd := dispatch_proj m cfg pc
    (faultResetStep (clearPidIfStep (positionTimeoutStep
      (persistentFaultStep cfg i
        (modeChangeStep pc (timeoutDecStep (setPositionStep u)) Control.clear).1)))) i
    (modeChangeStep pc (timeoutDecStep (setPositionStep u)) Control.clear).2 hp hnc
  refine ⟨?_, ?_, ?_, ?_⟩
  · show (dispatch m cfg pc _ i _).1.status.mode = _
    rw [hd.1, hS2]
  · show (dispatch m cfg pc _ i _).1.status.timeout_s = _
    rw [hd.2.1, hmc]
    simp [faultResetStep, clearPidIfStep, positionTimeoutStep, persistentFaultStep,
      timeoutDecStep, setPositionStep, ht, htp]
  · show (dispatch m cfg pc _ i _).1.cmd.mode = _
    rw [hd.2.2.2.1, hmc]
    simp [faultResetStep, clearPidIfStep, positionTimeoutStep, persistentFaultStep,
      timeoutDecStep, setPositionStep, hc]
  · show (dispatch m cfg pc _ i _).1.cmd.timeout_s = _
    rw [hd.2.2.2.2, hmc]
    simp [faultResetStep, clearPidIfStep, positionTimeoutStep, persistentFaultStep,
      timeoutDecStep, setPositionStep]



theorem doControl_kPositionTimeout (m : Motor) (cfg : Config) (pc : PositionConfig)
    (u : State) (i : Input)
    (hm : u.status.mode = Mode.kPositionTimeout)
    (hc : u.cmd.mode = Mode.kPosition)
    (hdf : i.driverFault = false)
    (hbus : ¬ (u.status.bus_V > cfg.max_voltage))
    (hfet : ¬ (u.status.fet_temp_C > cfg.fault_temperature))
    (hp : m.poles ≠ 0) :
    (doControl m cfg pc u i).1.status.mode = Mode.kPositionTimeout ∧
    (doControl m cfg pc u i).1.cmd.mode = Mode.kPosition := by
  have hmc : modeChangeStep pc (timeoutDecStep (setPositionStep u)) Control.clear
      = (timeoutDecStep (setPositionStep u), Control.clear) := by
    simp [modeChangeStep, maybeChangeMode, setPositionStep, timeoutDecStep, hm, hc]
  have hS2 : (faultResetStep (clearPidIfStep (positionTimeoutStep
        (persistentFaultStep cfg i
          (modeChangeStep pc (timeoutDecStep (setPositionStep u)) Control.clear).1)))).status.mode
      = Mode.kPositionTimeout := by
    rw [hmc]
    simp [faultResetStep, clearPidIfStep, positionTimeoutStep, persistentFaultStep,
      persistentFaultMF, timeoutDecStep, setPositionStep, hm, hdf, hbus, hfet]
  have hnc : (faultResetStep (clearPidIfStep (positionTimeoutStep
        (persistentFaultStep cfg i
          (modeChangeStep pc (timeoutDecStep (setPositionStep u)) Control.clear).1)))).status.mode
      ≠ Mode.kCalibrating := by
    rw [hS2]; intro hh; exact Mode.noConfusion hh
  have hd := dispatch_proj m cfg pc
    (faultResetStep (clearPidIfStep (positionTimeoutStep
      (persistentFaultStep cfg i
        (modeChangeStep pc (timeoutDecStep (setPositionStep u)) Control.clear).1)))) i
    (modeChangeStep pc (timeoutDecStep (setPositionStep u)) Control.clear).2 hp hnc
  constructor
  · show (dispatch m cfg pc _ i _).1.status.mode = _
    rw [hd.1, hS2]
  · show (dispatch m cfg pc _ i _).1.cmd.mode = _
    rw [hd.2.2.2.1, hmc]
    simp [faultResetStep, clearPidIfStep, positionTimeoutStep, persistentFaultStep,
      timeoutDecStep, setPositionStep, hc]

theorem doControl_cmdStop (m : Motor) (cfg : Config) (pc : PositionConfig)
    (u : State) (i : Input) (hc : u.cmd.mode = Mode.kStopped) :
    (doControl m cfg pc u i).1.status.mode = Mode.kStopped := by
  by_cases hm : u.status.mode = Mode.kStopped
  · simp [doControl, setPositionStep, timeoutDecStep, modeChangeStep, maybeChangeMode,
      persistentFaultStep, persistentFaultMF, positionTimeoutStep, clearPidIfStep,
      faultResetStep, dispatch, doStopped, hc, hm]
  · have hm2 : ¬ (Mode.kStopped = u.status.mode) := fun hh => hm hh.symm
    simp [doControl, setPositionStep, timeoutDecStep, modeChangeStep, maybeChangeMode,
      persistentFaultStep, persistentFaultMF, positionTimeoutStep, clearPidIfStep,
      faultResetStep, dispatch, doStopped, hc, hm, hm2]



theorem benignStep_spec (m : Motor) (cfg : Config) (s : State) (i : Input)
    (h : benignStep m cfg s i = true) :
    i.newCmd = none ∧ i.monitorHigh = false ∧ i.driverFault = false ∧
    busOf cfg i ≤ cfg.max_voltage ∧ i.fetTempC ≤ cfg.fault_temperature ∧
    (senseDelta m s i).natAbs ≤ kMaxPositionDelta := by
  simp only [benignStep, Bool.and_eq_true, Bool.not_eq_true',
    Option.isNone_iff_eq_none, decide_eq_true_eq] at h
  exact ⟨h.1.1.1.1.1, h.1.1.1.1.2, h.1.1.1.2, h.1.1.2, h.1.2, h.2⟩

theorem tick_kPosition (m : Motor) (cfg : Config) (pc : PositionConfig)
    (s : State) (i : Input) (t : ℚ)
    (h1 : i.newCmd = none) (h2 : i.monitorHigh = false)
    (h3 : (senseDelta m s i).natAbs ≤ kMaxPositionDelta)
    (h4 : s.cmd.timeout_s = some 0)
    (h5 : i.driverFault = false)
    (h6 : busOf cfg i ≤ cfg.max_voltage)
    (h7 : i.fetTempC ≤ cfg.fault_temperature)
    (hm : s.status.mode = Mode.kPosition)
    (hc : s.cmd.mode = Mode.kPosition)
    (ht : s.status.timeout_s = some t) (htp : 0 < t)
    (hp : m.poles ≠ 0) :
    ((tick m cfg pc s i).1.status.mode =
      if t - kPeriodS ≤ 0 then Mode.kPositionTimeout else Mode.kPosition) ∧
    (tick m cfg pc s i).1.status.timeout_s = some (max 0 (t - kPeriodS)) ∧
    (tick m cfg pc s i).1.cmd.mode = Mode.kPosition ∧
    (tick m cfg pc s i).1.cmd.timeout_s = some 0 := by
  have h := doControl_kPosition m cfg pc
    (calcCurrentState m cfg (doSense m s i) i) i t
    ((doSense_mode m s i h2 h3).trans hm) hc
    ((doSense_timeout m s i h4).trans ht) htp h5
    (not_lt.mpr h6) (not_lt.mpr h7) hp
  simp only [tick, h1]
  exact ⟨h.1, h.2.1, h.2.2.1, h.2.2.2.trans (doSense_cmd_timeout m s i h4)⟩

theorem tick_kPositionTimeout (m : Motor) (cfg : Config) (pc : PositionConfig)
    (s : State) (i : Input)
    (h1 : i.newCmd = none) (h2 : i.monitorHigh = false)
    (h3 : (senseDelta m s i).natAbs ≤ kMaxPositionDelta)
    (h5 : i.driverFault = false)
    (h6 : busOf cfg i ≤ cfg.max_voltage)
    (h7 : i.fetTempC ≤ cfg.fault_temperature)
    (hm : s.status.mode = Mode.kPositionTimeout)
    (hc : s.cmd.mode = Mode.kPosition)
    (hp : m.poles ≠ 0) :
    (tick m cfg pc s i).1.status.mode = Mode.kPositionTimeout ∧
    (tick m cfg pc s i).1.cmd.mode = Mode.kPosition := by
  have h := doControl_kPositionTimeout m cfg pc
    (calcCurrentState m cfg (doSense m s i) i) i
    ((doSense_mode m s i h2 h3).trans hm) hc h5
    (not_lt.mpr h6) (not_lt.mpr h7) hp
  simp only [tick, h1]
  exact h

theorem tick_cmdStop (m : Motor) (cfg : Config) (pc : PositionConfig)
    (s : State) (i : Input) (hc : effCmdMode s i = Mode.kStopped) :
    (tick m cfg pc s i).1.status.mode = Mode.kStopped := by
  rcases hin : i.newCmd with _ | d
  · simp only [effCmdMode, hin] at hc
    simp only [tick, hin]
    exact doControl_cmdStop m cfg pc _ i hc
  · simp only [effCmdMode, hin] at hc
    simp only [tick, hin]
    exact doControl_cmdStop m cfg pc _ i
      ((commandStep_cmd_mode cfg s d).trans hc)

theorem ptRun (m : Motor) (cfg : Config) (pc : PositionConfig) :
    ∀ (is : List Input) (s : State),
    benignTrace m cfg pc s is = true →
    s.status.mode = Mode.kPositionTimeout → s.cmd.mode = Mode.kPosition →
    m.poles ≠ 0 →
    (ticks m cfg pc s is).status.mode = Mode.kPositionTimeout := by
  intro is
  induction is with
  | nil => intro s _ hm _ _; exact hm
  | cons i rest ih =>
    intro s htr hm hc hp
    simp only [benignTrace, Bool.and_eq_true] at htr
    obtain ⟨hb, htr2⟩ := htr
    obtain ⟨h1, h2, h5, h6, h7, h3⟩ := benignStep_spec m cfg s i hb
    have hk := tick_kPositionTimeout m cfg pc s i h1 h2 h3 h5 h6 h7 hm hc hp
    simp only [ticks]
    exact ih _ htr2 hk.1 hk.2 hp

theorem posRun (m : Motor) (cfg : Config) (pc : PositionConfig) :
    ∀ (is : List Input) (s : State) (T : ℚ),
    s.status.mode = Mode.kPosition → s.cmd.mode = Mode.kPosition →
    s.cmd.timeout_s = some 0 → s.status.timeout_s = some T → 0 < T →
    m.poles ≠ 0 → benignTrace m cfg pc s is = true →
    is.length = (⌈kRateHz * T⌉).toNat + 1 →
    (ticks m cfg pc s is).status.mode = Mode.kPositionTimeout := by
  intro is
  induction is with
  | nil =>
    intro s T _ _ _ _ _ _ _ hlen
    exact absurd hlen (by simp)
  | cons i rest ih =>
    intro s T hm hc h4 ht htp hp htr hlen
    simp only [benignTrace, Bool.and_eq_true] at htr
    obtain ⟨hb, htr2⟩ := htr
    obtain ⟨h1, h2, h5, h6, h7, h3⟩ := benignStep_spec m cfg s i hb
    have hk := tick_kPosition m cfg pc s i T h1 h2 h3 h4 h5 h6 h7 hm hc ht htp hp
    simp only [ticks]
    by_cases hcond : T - kPeriodS ≤ 0
    · exact ptRun m cfg pc rest _ htr2 (by rw [hk.1, if_pos hcond]) hk.2.2.1 hp
    · have htpos : (0 : ℚ) < T - kPeriodS := not_le.mp hcond
      have htnew : (tick m cfg pc s i).1.status.timeout_s = some (T - kPeriodS) := by
        rw [hk.2.1, max_eq_right (le_of_lt htpos)]
      have hgt : (1 : ℤ) < ⌈kRateHz * T⌉ := by
        rw [Int.lt_ceil]
        have : kRateHz * kPeriodS < kRateHz * T := by
          have hlt : kPeriodS < T := by linarith
          have hr : (0 : ℚ) < kRateHz := by norm_num [kRateHz]
          exact mul_lt_mul_of_pos_left hlt hr
        calc ((1 : ℤ) : ℚ) = kRateHz * kPeriodS := by norm_num [kRateHz, kPeriodS]
        _ < kRateHz * T := this
      have hceil : ⌈kRateHz * (T - kPeriodS)⌉ = ⌈kRateHz * T⌉ - 1 := by
        have he : kRateHz * (T - kPeriodS) = kRateHz * T - 1 := by
          norm_num [kRateHz, kPeriodS]; ring
        rw [he, Int.ceil_sub_one]
      have hlen2 : rest.length = (⌈kRateHz * (T - kPeriodS)⌉).toNat + 1 := by
        simp only [List.length_cons] at hlen
        rw [hceil]
        omega
      exact ih _ (T - kPeriodS) (by rw [hk.1, if_neg hcond]) hk.2.2.1 hk.2.2.2
        htnew htpos hp htr2 hlen2



theorem senseDelta_self (m : Motor) (s : State) (i : Input)
    (hpos : observedPosition m i.encoderRaw = s.status.position) :
    senseDelta m s i = 0 := by
  simp only [senseDelta, hpos]
  norm_num [i16]

theorem benignTrace_replicate (m : Motor) (cfg : Config) (pc : PositionConfig)
    (i : Input) (n : ℕ)
    (h1 : i.newCmd = none) (h2 : i.monitorHigh = false)
    (h5 : i.driverFault = false)
    (h6 : busOf cfg i ≤ cfg.max_voltage)
    (h7 : i.fetTempC ≤ cfg.fault_temperature) :
    ∀ (s : State), observedPosition m i.encoderRaw = s.status.position →
    benignTrace m cfg pc s (List.replicate n i) = true := by
  induction n with
  | zero => intro s _; rfl
  | succ k ih =>
    intro s hpos
    simp only [List.replicate, benignTrace, Bool.and_eq_true]
    refine ⟨?_, ih _ (tick_position m cfg pc s i).symm⟩
    simp [benignStep, h1, h2, h5, h6, h7, senseDelta_self m s i hpos,
      kMaxPositionDelta, kIntRateHz]

/-- C3: the ISR decrements a positive `status_.timeout_s` by `1/rate` each
tick when the active command does not refresh it; from `kPosition` with
timeout `T`, a fault-free unrefreshed run of `ceil(rate·T) + 1` ticks ends
in `kPositionTimeout`; a fault-free tick in `kPositionTimeout` with a
non-stop command stays in `kPositionTimeout`; and a `kStopped` command
always leaves it. -/
theorem C3_position_timeout_countdown :
    (∀ (m : Motor) (cfg : Config) (pc : PositionConfig) (s : State)
       (i : Input) (t : ℚ),
       i.newCmd = none → s.cmd.timeout_s = some 0 →
       s.status.timeout_s = some t → 0 < t →
       (tick m cfg pc s i).1.status.timeout_s = some (max 0 (t - kPeriodS))) ∧
    (∀ (m : Motor) (cfg : Config) (pc : PositionConfig) (is : List Input)
       (s : State) (T : ℚ),
       s.status.mode = Mode.kPosition → s.cmd.mode = Mode.kPosition →
       s.cmd.timeout_s = some 0 → s.status.timeout_s = some T → 0 < T →
       m.poles ≠ 0 → benignTrace m cfg pc s is = true →
       is.length = (⌈kRateHz * T⌉).toNat + 1 →
       (ticks m cfg pc s is).status.mode = Mode.kPositionTimeout) ∧
    (∀ (m : Motor) (cfg : Config) (pc : PositionConfig) (is : List Input)
       (s : State),
       s.status.mode = Mode.kPositionTimeout → s.cmd.mode = Mode.kPosition →
       m.poles ≠ 0 → benignTrace m cfg pc s is = true →
       (ticks m cfg pc s is).status.mode = Mode.kPositionTimeout) ∧
    (∀ (m : Motor) (cfg : Config) (pc : PositionConfig) (s : State) (i : Input),
       s.status.mode = Mode.kPositionTimeout → effCmdMode s i = Mode.kStopped →
       (tick m cfg pc s i).1.status.mode = Mode.kStopped) := by
  refine ⟨?_, ?_, ?_, ?_⟩
  · intro m cfg pc s i t h1 h4 ht htp
    simp only [tick, h1]
    rw [doControl_timeout]
    show timeoutDec (doSense m s i).status.timeout_s = _
    rw [(doSense_timeout m s i h4).trans ht]
    simp [timeoutDec, htp]
  · intro m cfg pc is s T hm hc h4 ht htp hp htr hlen
    exact posRun m cfg pc is s T hm hc h4 ht htp hp htr hlen
  · intro m cfg pc is s hm hc hp htr
    exact ptRun m cfg pc is s htr hm hc hp
  · intro m cfg pc s i _ hc
    exact tick_cmdStop m cfg pc s i hc

def statePos : State :=
  { state0 with
    status := { status0 with mode := Mode.kPosition, timeout_s := some (3 / 40000) },
    cmd := { cmd0 with mode := Mode.kPosition } }

def statePT : State :=
  { state0 with
    status := { status0 with mode := Mode.kPositionTimeout },
    cmd := { cmd0 with mode := Mode.kPosition } }

theorem C3_position_timeout_countdown_witness :
    (tick motor0 cfg0 pcfg0 statePos input0).1.status.timeout_s =
      some (max 0 (3 / 40000 - kPeriodS)) ∧
    (ticks motor0 cfg0 pcfg0 statePos (List.replicate 4 input0)).status.mode =
      Mode.kPositionTimeout ∧
    (ticks motor0 cfg0 pcfg0 statePT [input0]).status.mode =
      Mode.kPositionTimeout ∧
    (tick motor0 cfg0 pcfg0
      { statePT with cmd := { cmd0 with mode := Mode.kStopped } }
      input0).1.status.mode = Mode.kStopped := by
  have hbus : busOf cfg0 input0 ≤ cfg0.max_voltage := by
    norm_num [busOf, input0, cfg0]
  have hfet : input0.fetTempC ≤ cfg0.fault_temperature := by
    norm_num [input0, cfg0]
  have htr : ∀ (s : State), observedPosition motor0 input0.encoderRaw =
      s.status.position → ∀ n, benignTrace motor0 cfg0 pcfg0 s
        (List.replicate n input0) = true :=
    fun s hp n => benignTrace_replicate motor0 cfg0 pcfg0 input0 n rfl rfl rfl
      hbus hfet s hp
  refine ⟨?_, ?_, ?_, ?_⟩
  · exact C3_position_timeout_countdown.1 motor0 cfg0 pcfg0 statePos input0
      (3 / 40000) rfl rfl rfl (by norm_num)
  · refine C3_position_timeout_countdown.2.1 motor0 cfg0 pcfg0
      (List.replicate 4 input0) statePos (3 / 40000) rfl rfl rfl rfl
      (by norm_num) (by norm_num [motor0]) (htr statePos rfl 4) ?_
    have he : kRateHz * (3 / 40000 : ℚ) = 3 := by norm_num [kRateHz]
    rw [he]
    norm_num
    decide
  · exact C3_position_timeout_countdown.2.2.1 motor0 cfg0 pcfg0 [input0] statePT
      rfl rfl (by norm_num [motor0]) (htr statePT rfl 1)
  · exact C3_position_timeout_countdown.2.2.2 motor0 cfg0 pcfg0
      { statePT with cmd := { cmd0 with mode := Mode.kStopped } } input0
      rfl rfl



theorem dispatch_eq_kPwm (m : Motor) (cfg : Config) (pc : PositionConfig)
    (s : State) (i : Input) (out : Control) (h : s.status.mode = Mode.kPwm) :
    dispatch m cfg pc s i out = (s, doPwmControl s.cmd.pwm out) := by
  unfold dispatch
  split <;> simp_all

theorem doControl_kPwm_pwm (m : Motor) (cfg : Config) (pc : PositionConfig)
    (u : State) (i : Input)
    (hm : u.status.mode = Mode.kPwm) (hc : u.cmd.mode = Mode.kPwm)
    (hdf : i.driverFault = false)
    (hbus : ¬ (u.status.bus_V > cfg.max_voltage))
    (hfet : ¬ (u.status.fet_temp_C > cfg.fault_temperature)) :
    (doControl m cfg pc u i).2.pwm =
      some { a := limitPwm u.cmd.pwm.a, b := limitPwm u.cmd.pwm.b,
             c := limitPwm u.cmd.pwm.c } := by
  have hmc : modeChangeStep pc (timeoutDecStep (setPositionStep u)) Control.clear
      = (timeoutDecStep (setPositionStep u), Control.clear) := by
    simp [modeChangeStep, setPositionStep, timeoutDecStep, hm, hc]
  have hS2 : (faultResetStep (clearPidIfStep (positionTimeoutStep
        (persistentFaultStep cfg i (timeoutDecStep (setPositionStep u)))))).status.mode
      = Mode.kPwm := by
    simp [faultResetStep, clearPidIfStep, positionTimeoutStep, persistentFaultStep,
      persistentFaultMF, timeoutDecStep, setPositionStep, hm, hdf, hbus, hfet]
  simp only [doControl, hmc]
  rw [dispatch_eq_kPwm _ _ _ _ _ _ hS2]
  rfl

theorem tick_kPwm_pwm (m : Motor) (cfg : Config) (pc : PositionConfig)
    (s : State) (i : Input)
    (h1 : i.newCmd = none) (h2 : i.monitorHigh = false)
    (h3 : (senseDelta m s i).natAbs ≤ kMaxPositionDelta)
    (h5 : i.driverFault = false)
    (h6 : busOf cfg i ≤ cfg.max_voltage)
    (h7 : i.fetTempC ≤ cfg.fault_temperature)
    (hm : s.status.mode = Mode.kPwm) (hc : s.cmd.mode = Mode.kPwm) :
    (tick m cfg pc s i).2.pwm =
      some { a := limitPwm s.cmd.pwm.a, b := limitPwm s.cmd.pwm.b,
             c := limitPwm s.cmd.pwm.c } := by
  have h := doControl_kPwm_pwm m cfg pc
    (calcCurrentState m cfg (doSense m s i) i) i
    ((doSense_mode m s i h2 h3).trans hm) hc h5
    (not_lt.mpr h6) (not_lt.mpr h7)
  simp only [tick, h1]
  exact h

def statePwm : State :=
  { state0 with
    status := { status0 with mode := Mode.kPwm },
    cmd := { cmd0 with mode := Mode.kPwm } }

/-- C2: every duty triple a tick emits to the timer compare registers lies
in the closed interval `[kMinPwm, kMaxPwm]` (raw zero writes in
`kStopped`/`kFault`/calibration entry are the separate `zeroed` effect),
with `kMinPwm = kCurrentSampleTime · 2 · kPwmRateHz` and
`kMaxPwm = 1 − kMinPwm`. -/
theorem C2_phase_pwm_duty_in_range :
    (∀ (m : Motor) (cfg : Config) (pc : PositionConfig) (s : State) (i : Input)
       (v : Vec3),
       (tick m cfg pc s i).2.pwm = some v →
       (kMinPwm ≤ v.a ∧ v.a ≤ kMaxPwm) ∧ (kMinPwm ≤ v.b ∧ v.b ≤ kMaxPwm) ∧
       (kMinPwm ≤ v.c ∧ v.c ≤ kMaxPwm)) ∧
    kMinPwm = kCurrentSampleTime * 2 * (kPwmRateHz : ℚ) ∧
    kMaxPwm = 1 - kMinPwm := by
  refine ⟨fun m cfg pc s i v hv => pwmBounded_tick m cfg pc s i v hv, ?_, rfl⟩
  norm_num [kMinPwm, kCurrentSampleTime, kPwmRateHz]

theorem C2_phase_pwm_duty_in_range_witness :
    (kMinPwm ≤ limitPwm (1 / 2) ∧ limitPwm (1 / 2) ≤ kMaxPwm) ∧
    (kMinPwm ≤ limitPwm (1 / 2) ∧ limitPwm (1 / 2) ≤ kMaxPwm) ∧
    (kMinPwm ≤ limitPwm (1 / 2) ∧ limitPwm (1 / 2) ≤ kMaxPwm) :=
  C2_phase_pwm_duty_in_range.1 motor0 cfg0 pcfg0 statePwm input0
    { a := limitPwm (1 / 2), b := limitPwm (1 / 2), c := limitPwm (1 / 2) }
    (tick_kPwm_pwm motor0 cfg0 pcfg0 statePwm input0 rfl rfl
      (by rw [senseDelta_self motor0 statePwm input0 rfl]; norm_num)
      rfl (by norm_num [busOf, input0, cfg0]) (by norm_num [input0, cfg0])
      rfl rfl)



/-- One average offset outside 200 counts of mid-scale (2048). -/
def offsetBad (a : ℕ) : Prop := 200 < ((a : ℤ) - 2048).natAbs

instance (a : ℕ) : Decidable (offsetBad a) := by
  unfold offsetBad; infer_instance

theorem dispatch_eq_kCalibrating (m : Motor) (cfg : Config) (pc : PositionConfig)
    (s : State) (i : Input) (out : Control)
    (h : s.status.mode = Mode.kCalibrating) :
    dispatch m cfg pc s i out = (doCalibrating s, out) := by
  unfold dispatch
  split <;> simp_all

theorem modeChangeStep_notStop (pc : PositionConfig) (s : State) (out : Control)
    (hm : s.status.mode = Mode.kCalibrating) (hc : s.cmd.mode ≠ Mode.kStopped) :
    modeChangeStep pc s out = (s, out) := by
  rcases hcm : s.cmd.mode <;>
    first
      | exact absurd hcm hc
      | simp [modeChangeStep, maybeChangeMode, hm, hcm]

theorem doCalibrating_spec (s : State) :
    (doCalibrating s).calibrate_adc1 = s.calibrate_adc1 + s.status.adc_cur1_raw ∧
    (doCalibrating s).calibrate_adc2 = s.calibrate_adc2 + s.status.adc_cur2_raw ∧
    (doCalibrating s).calibrate_adc3 = s.calibrate_adc3 + s.status.adc_cur3_raw ∧
    (doCalibrating s).calibrate_count = (s.calibrate_count + 1) % 65536 ∧
    (doCalibrating s).cmd = s.cmd ∧
    (((s.calibrate_count + 1) % 65536 < kCalibrateCount →
       (doCalibrating s).status = s.status)) ∧
    (¬ ((s.calibrate_count + 1) % 65536 < kCalibrateCount) →
      ((offsetBad ((s.calibrate_adc1 + s.status.adc_cur1_raw) / kCalibrateCount) ∨
        offsetBad ((s.calibrate_adc2 + s.status.adc_cur2_raw) / kCalibrateCount) ∨
        offsetBad ((s.calibrate_adc3 + s.status.adc_cur3_raw) / kCalibrateCount)) →
        (doCalibrating s).status =
          { s.status with mode := Mode.kFault, fault := Errc.kCalibrationFault }) ∧
      (¬ (offsetBad ((s.calibrate_adc1 + s.status.adc_cur1_raw) / kCalibrateCount) ∨
          offsetBad ((s.calibrate_adc2 + s.status.adc_cur2_raw) / kCalibrateCount) ∨
          offsetBad ((s.calibrate_adc3 + s.status.adc_cur3_raw) / kCalibrateCount)) →
        (doCalibrating s).status =
          { s.status with
            adc_cur1_offset := (s.calibrate_adc1 + s.status.adc_cur1_raw) / kCalibrateCount,
            adc_cur2_offset := (s.calibrate_adc2 + s.status.adc_cur2_raw) / kCalibrateCount,
            adc_cur3_offset := (s.calibrate_adc3 + s.status.adc_cur3_raw) / kCalibrateCount,
            mode := Mode.kCalibrationComplete })) := by
  simp only [doCalibrating, offsetBad]
  refine ⟨?_, ?_, ?_, ?_, ?_, ?_, ?_⟩ <;>
    first
      | (split <;> first | rfl | (split <;> rfl))
      | (intro hlt
         split
         next h1 => rfl
         next h1 => exact absurd hlt h1)
      | (intro hge
         split
         next h1 => exact absurd h1 hge
         next h1 =>
           constructor
           · intro hbad
             split
             next h2 => rfl
             next h2 => exact absurd hbad h2
           · intro hgood
             split
             next h2 => exact absurd h2 hgood
             next h2 => rfl)



set_option maxHeartbeats 2000000 in
theorem tick_kCalibrating (m : Motor) (cfg : Config) (pc : PositionConfig)
    (s : State) (i : Input)
    (h1 : i.newCmd = none) (h2 : i.monitorHigh = false)
    (h3 : (senseDelta m s i).natAbs ≤ kMaxPositionDelta)
    (h5 : i.driverFault = false)
    (h6 : busOf cfg i ≤ cfg.max_voltage)
    (h7 : i.fetTempC ≤ cfg.fault_temperature)
    (hm : s.status.mode = Mode.kCalibrating)
    (hc : s.cmd.mode ≠ Mode.kStopped) :
    (tick m cfg pc s i).1.calibrate_adc1 = s.calibrate_adc1 + i.adcCur1 % 4096 ∧
    (tick m cfg pc s i).1.calibrate_adc2 = s.calibrate_adc2 + i.adcCur2 % 4096 ∧
    (tick m cfg pc s i).1.calibrate_adc3 = s.calibrate_adc3 + i.adcCur3 % 4096 ∧
    (tick m cfg pc s i).1.calibrate_count = (s.calibrate_count + 1) % 65536 ∧
    (tick m cfg pc s i).1.cmd.mode = s.cmd.mode ∧
    (((s.calibrate_count + 1) % 65536 < kCalibrateCount →
       (tick m cfg pc s i).1.status.mode = Mode.kCalibrating ∧
       (tick m cfg pc s i).1.status.adc_cur1_offset = s.status.adc_cur1_offset ∧
       (tick m cfg pc s i).1.status.adc_cur2_offset = s.status.adc_cur2_offset ∧
       (tick m cfg pc s i).1.status.adc_cur3_offset = s.status.adc_cur3_offset)) ∧
    (¬ ((s.calibrate_count + 1) % 65536 < kCalibrateCount) →
      ((offsetBad ((s.calibrate_adc1 + i.adcCur1 % 4096) / kCalibrateCount) ∨
        offsetBad ((s.calibrate_adc2 + i.adcCur2 % 4096) / kCalibrateCount) ∨
        offsetBad ((s.calibrate_adc3 + i.adcCur3 % 4096) / kCalibrateCount)) →
        (tick m cfg pc s i).1.status.mode = Mode.kFault ∧
        (tick m cfg pc s i).1.status.fault = Errc.kCalibrationFault ∧
        (tick m cfg pc s i).1.status.adc_cur1_offset = s.status.adc_cur1_offset ∧
        (tick m cfg pc s i).1.status.adc_cur2_offset = s.status.adc_cur2_offset ∧
        (tick m cfg pc s i).1.status.adc_cur3_offset = s.status.adc_cur3_offset) ∧
      (¬ (offsetBad ((s.calibrate_adc1 + i.adcCur1 % 4096) / kCalibrateCount) ∨
          offsetBad ((s.calibrate_adc2 + i.adcCur2 % 4096) / kCalibrateCount) ∨
          offsetBad ((s.calibrate_adc3 + i.adcCur3 % 4096) / kCalibrateCount)) →
        (tick m cfg pc s i).1.status.mode = Mode.kCalibrationComplete ∧
        (tick m cfg pc s i).1.status.adc_cur1_offset =
          (s.calibrate_adc1 + i.adcCur1 % 4096) / kCalibrateCount ∧
        (tick m cfg pc s i).1.status.adc_cur2_offset =
          (s.calibrate_adc2 + i.adcCur2 % 4096) / kCalibrateCount ∧
        (tick m cfg pc s i).1.status.adc_cur3_offset =
          (s.calibrate_adc3 + i.adcCur3 % 4096) / kCalibrateCount)) := by
  have hum : (calcCurrentState m cfg (doSense m s i) i).status.mode =
      Mode.kCalibrating := (doSense_mode m s i h2 h3).trans hm
  have hmc := modeChangeStep_notStop pc
    (timeoutDecStep (setPositionStep (calcCurrentState m cfg (doSense m s i) i)))
    Control.clear hum hc
  have hbus2 : ¬ ((calcCurrentState m cfg (doSense m s i) i).status.bus_V >
      cfg.max_voltage) := not_lt.mpr h6
  have hfet2 : ¬ ((calcCurrentState m cfg (doSense m s i) i).status.fet_temp_C >
      cfg.fault_temperature) := not_lt.mpr h7
  have hS2 : (faultResetStep (clearPidIfStep (positionTimeoutStep
      (persistentFaultStep cfg i
        (timeoutDecStep (setPositionStep
          (calcCurrentState m cfg (doSense m s i) i))))))).status.mode =
      Mode.kCalibrating := by
    simp [faultResetStep, clearPidIfStep, positionTimeoutStep, persistentFaultStep,
      persistentFaultMF, timeoutDecStep, setPositionStep, hum, h5, hbus2, hfet2]
  have hstep : (tick m cfg pc s i).1 =
      doCalibrating (faultResetStep (clearPidIfStep (positionTimeoutStep
        (persistentFaultStep cfg i
          (timeoutDecStep (setPositionStep
            (calcCurrentState m cfg (doSense m s i) i))))))) := by
    simp only [tick, h1, doControl, hmc]
    rw [dispatch_eq_kCalibrating _ _ _ _ _ _ hS2]
  have hsp := doCalibrating_spec
    (faultResetStep (clearPidIfStep (positionTimeoutStep
      (persistentFaultStep cfg i
        (timeoutDecStep (setPositionStep
          (calcCurrentState m cfg (doSense m s i) i)))))))
  rw [hstep]
  refine ⟨hsp.1.trans rfl, hsp.2.1.trans rfl, hsp.2.2.1.trans rfl,
    hsp.2.2.2.1.trans rfl, (congrArg CommandData.mode hsp.2.2.2.2.1).trans rfl,
    ?_, ?_⟩
  · intro hlt
    have hst := hsp.2.2.2.2.2.1 hlt
    exact ⟨(congrArg Status.mode hst).trans hS2,
      (congrArg Status.adc_cur1_offset hst).trans rfl,
      (congrArg Status.adc_cur2_offset hst).trans rfl,
      (congrArg Status.adc_cur3_offset hst).trans rfl⟩
  · intro hge
    have hcase := hsp.2.2.2.2.2.2 hge
    constructor
    · intro hbad
      have hst := hcase.1 hbad
      exact ⟨(congrArg Status.mode hst).trans rfl,
        (congrArg Status.fault hst).trans rfl,
        (congrArg Status.adc_cur1_offset hst).trans rfl,
        (congrArg Status.adc_cur2_offset hst).trans rfl,
        (congrArg Status.adc_cur3_offset hst).trans rfl⟩
    · intro hgood
      have hst := hcase.2 hgood
      exact ⟨(congrArg Status.mode hst).trans rfl,
        (congrArg Status.adc_cur1_offset hst).trans rfl,
        (congrArg Status.adc_cur2_offset hst).trans rfl,
        (congrArg Status.adc_cur3_offset hst).trans rfl⟩



/-- Sum of the 12-bit current-1 samples a run reads. -/
def curSum1 (is : List Input) : ℕ := (is.map (fun i => i.adcCur1 % 4096)).sum

/-- Sum of the 12-bit current-2 samples a run reads. -/
def curSum2 (is : List Input) : ℕ := (is.map (fun i => i.adcCur2 % 4096)).sum

/-- Sum of the 12-bit current-3 samples a run reads. -/
def curSum3 (is : List Input) : ℕ := (is.map (fun i => i.adcCur3 % 4096)).sum

set_option maxHeartbeats 3000000 in
theorem calibRun (m : Motor) (cfg : Config) (pc : PositionConfig) :
    ∀ (is : List Input) (s : State),
    benignTrace m cfg pc s is = true →
    s.status.mode = Mode.kCalibrating → s.cmd.mode ≠ Mode.kStopped →
    s.calibrate_count + is.length = kCalibrateCount → 1 ≤ is.length →
    ((offsetBad ((s.calibrate_adc1 + curSum1 is) / kCalibrateCount) ∨
      offsetBad ((s.calibrate_adc2 + curSum2 is) / kCalibrateCount) ∨
      offsetBad ((s.calibrate_adc3 + curSum3 is) / kCalibrateCount)) →
      (ticks m cfg pc s is).status.mode = Mode.kFault ∧
      (ticks m cfg pc s is).status.fault = Errc.kCalibrationFault ∧
      (ticks m cfg pc s is).status.adc_cur1_offset = s.status.adc_cur1_offset ∧
      (ticks m cfg pc s is).status.adc_cur2_offset = s.status.adc_cur2_offset ∧
      (ticks m cfg pc s is).status.adc_cur3_offset = s.status.adc_cur3_offset) ∧
    (¬ (offsetBad ((s.calibrate_adc1 + curSum1 is) / kCalibrateCount) ∨
        offsetBad ((s.calibrate_adc2 + curSum2 is) / kCalibrateCount) ∨
        offsetBad ((s.calibrate_adc3 + curSum3 is) / kCalibrateCount)) →
      (ticks m cfg pc s is).status.mode = Mode.kCalibrationComplete ∧
      (ticks m cfg pc s is).status.adc_cur1_offset =
        (s.calibrate_adc1 + curSum1 is) / kCalibrateCount ∧
      (ticks m cfg pc s is).status.adc_cur2_offset =
        (s.calibrate_adc2 + curSum2 is) / kCalibrateCount ∧
      (ticks m cfg pc s is).status.adc_cur3_offset =
        (s.calibrate_adc3 + curSum3 is) / kCalibrateCount) := by
  intro is
  induction is with
  | nil =>
    intro s _ _ _ _ hlen
    simp at hlen
  | cons i rest ih =>
    intro s htr hm hc hlen _
    simp only [benignTrace, Bool.and_eq_true] at htr
    obtain ⟨hb, htr2⟩ := htr
    obtain ⟨h1, h2, h5, h6, h7, h3⟩ := benignStep_spec m cfg s i hb
    obtain ⟨hA1, hA2, hA3, hCnt, hCmd, hLt, hGe⟩ :=
      tick_kCalibrating m cfg pc s i h1 h2 h3 h5 h6 h7 hm hc
    rcases rest with _ | ⟨r, rs⟩
    · have hcnt : s.calibrate_count = 255 := by
        simp only [List.length_cons, List.length_nil, kCalibrateCount] at hlen
        omega
      have hge : ¬ ((s.calibrate_count + 1) % 65536 < kCalibrateCount) := by
        rw [hcnt]
        decide
      have hfin := hGe hge
      simp only [ticks, curSum1, curSum2, curSum3, List.map_cons, List.map_nil,
        List.sum_cons, List.sum_nil, add_zero]
      exact hfin
    · have h255 : s.calibrate_count + 1 ≤ 255 := by
        simp only [List.length_cons, kCalibrateCount] at hlen
        omega
      have hlt : (s.calibrate_count + 1) % 65536 < kCalibrateCount := by
        rw [Nat.mod_eq_of_lt (by omega)]
        simp only [kCalibrateCount]
        simp only [List.length_cons, kCalibrateCount] at hlen
        omega
      obtain ⟨hMode2, hO1, hO2, hO3⟩ := hLt hlt
      have hcount : (tick m cfg pc s i).1.calibrate_count + (r :: rs).length =
          kCalibrateCount := by
        rw [hCnt, Nat.mod_eq_of_lt (by omega)]
        simp only [List.length_cons] at hlen ⊢
        omega
      have hih := ih (tick m cfg pc s i).1 htr2 hMode2
        (by rw [hCmd]; exact hc) hcount (by simp)
      rw [hA1, hA2, hA3] at hih
      simp only [curSum1, curSum2, curSum3, List.map_cons, List.sum_cons] at hih ⊢
      simp only [add_assoc] at hih ⊢
      simp only [ticks]
      constructor
      · intro hbad
        have hres := hih.1 hbad
        exact ⟨hres.1, hres.2.1, hres.2.2.1.trans hO1, hres.2.2.2.1.trans hO2,
          hres.2.2.2.2.trans hO3⟩
      · intro hgood
        exact hih.2 hgood



/-- C4: from a fresh `kCalibrating` state, a fault-free run of exactly
`kCalibrateCount = 256` ticks accumulates the three raw current samples,
then either faults with `kCalibrationFault` leaving the offsets unchanged
(some average off mid-scale by more than 200 counts) or stores the three
averages as offsets and enters `kCalibrationComplete`. -/
theorem C4_calibration_averages :
    ∀ (m : Motor) (cfg : Config) (pc : PositionConfig) (is : List Input)
      (s : State),
    benignTrace m cfg pc s is = true →
    s.status.mode = Mode.kCalibrating → s.cmd.mode ≠ Mode.kStopped →
    s.calibrate_count = 0 → s.calibrate_adc1 = 0 → s.calibrate_adc2 = 0 →
    s.calibrate_adc3 = 0 → is.length = kCalibrateCount →
    ((offsetBad (curSum1 is / kCalibrateCount) ∨
      offsetBad (curSum2 is / kCalibrateCount) ∨
      offsetBad (curSum3 is / kCalibrateCount)) →
      (ticks m cfg pc s is).status.mode = Mode.kFault ∧
      (ticks m cfg pc s is).status.fault = Errc.kCalibrationFault ∧
      (ticks m cfg pc s is).status.adc_cur1_offset = s.status.adc_cur1_offset ∧
      (ticks m cfg pc s is).status.adc_cur2_offset = s.status.adc_cur2_offset ∧
      (ticks m cfg pc s is).status.adc_cur3_offset = s.status.adc_cur3_offset) ∧
    (¬ (offsetBad (curSum1 is / kCalibrateCount) ∨
        offsetBad (curSum2 is / kCalibrateCount) ∨
        offsetBad (curSum3 is / kCalibrateCount)) →
      (ticks m cfg pc s is).status.mode = Mode.kCalibrationComplete ∧
      (ticks m cfg pc s is).status.adc_cur1_offset = curSum1 is / kCalibrateCount ∧
      (ticks m cfg pc s is).status.adc_cur2_offset = curSum2 is / kCalibrateCount ∧
      (ticks m cfg pc s is).status.adc_cur3_offset = curSum3 is / kCalibrateCount) := by
  intro m cfg pc is s htr hm hc hcnt ha1 ha2 ha3 hlen
  have h := calibRun m cfg pc is s htr hm hc
    (by rw [hcnt, hlen]; exact Nat.zero_add _)
    (by rw [hlen]; norm_num [kCalibrateCount])
  rw [ha1, ha2, ha3, zero_add, zero_add, zero_add] at h
  exact h

def inputCal : Input :=
  { input0 with adcCur1 := 2050, adcCur2 := 2045, adcCur3 := 2052 }

def stateCal : State :=
  { state0 with
    status := { status0 with mode := Mode.kCalibrating },
    cmd := { cmd0 with mode := Mode.kCurrent } }

set_option maxRecDepth 100000 in
theorem C4_calibration_averages_witness :
    (ticks motor0 cfg0 pcfg0 stateCal
      (List.replicate 256 inputCal)).status.mode = Mode.kCalibrationComplete ∧
    (ticks motor0 cfg0 pcfg0 stateCal
      (List.replicate 256 inputCal)).status.adc_cur1_offset = 2050 ∧
    (ticks motor0 cfg0 pcfg0 stateCal
      (List.replicate 256 inputCal)).status.adc_cur2_offset = 2045 ∧
    (ticks motor0 cfg0 pcfg0 stateCal
      (List.replicate 256 inputCal)).status.adc_cur3_offset = 2052 := by
  have hs1 : curSum1 (List.replicate 256 inputCal) / kCalibrateCount = 2050 := by
    simp [curSum1, List.map_replicate, List.sum_replicate, smul_eq_mul, inputCal,
      input0, kCalibrateCount]
  have hs2 : curSum2 (List.replicate 256 inputCal) / kCalibrateCount = 2045 := by
    simp [curSum2, List.map_replicate, List.sum_replicate, smul_eq_mul, inputCal,
      input0, kCalibrateCount]
  have hs3 : curSum3 (List.replicate 256 inputCal) / kCalibrateCount = 2052 := by
    simp [curSum3, List.map_replicate, List.sum_replicate, smul_eq_mul, inputCal,
      input0, kCalibrateCount]
  have htr : benignTrace motor0 cfg0 pcfg0 stateCal (List.replicate 256 inputCal)
      = true := by
    refine benignTrace_replicate motor0 cfg0 pcfg0 inputCal 256 rfl rfl rfl ?_ ?_
      stateCal rfl
    · norm_num [busOf, inputCal, input0, cfg0]
    · norm_num [inputCal, input0, cfg0]
  have h := (C4_calibration_averages motor0 cfg0 pcfg0
    (List.replicate 256 inputCal) stateCal htr rfl
    (by intro hh; exact Mode.noConfusion hh) rfl rfl rfl rfl
    (by simp [kCalibrateCount])).2
    (by rw [hs1, hs2, hs3]; decide)
  rw [hs1, hs2, hs3] at h
  exact h


/-- The clamp of the claim, written from the spec's words ("clamp(x,
position_min, position_max)" with optional bounds). -/
def clampOpt (x : ℚ) (minv maxv : Option ℚ) : ℚ :=
  match minv, maxv with
  | some mn, some mx => min mx (max mn x)
  | some mn, none => max mn x
  | none, some mx => min mx x
  | none, none => x

/-- The claim's description of the control-position advance, written from
the spec's words: clamp the velocity integration, snap to `stop_position`
when moving past it, zero the velocity command when the position did not
change. -/
def advanceControlPositionSpec (pc : PositionConfig) (cp velocity : ℚ)
    (stop : Option ℚ) : ℚ × ℚ :=
  let cp1 := clampOpt (cp + velocity / kRateHz) pc.position_min pc.position_max
  let cp2 :=
    match stop with
    | some stp => if (cp1 - stp) * velocity > 0 then stp else cp1
    | none => cp1
  (cp2, if cp2 = cp then 0 else velocity)

theorem LimitOpt_eq_clampOpt (x : ℚ) (minv maxv : Option ℚ)
    (h : ∀ mn mx, minv = some mn → maxv = some mx → mn ≤ mx) :
    LimitOpt x minv maxv = clampOpt x minv maxv := by
  rcases hmn : minv with _ | mn <;> rcases hmx : maxv with _ | mx
  · rfl
  · simp only [LimitOpt, clampOpt]
    rcases le_or_lt x mx with hle | hgt
    · rw [if_neg (not_lt.mpr hle), min_eq_right hle]
    · rw [if_pos hgt, min_eq_left (le_of_lt hgt)]
  · simp only [LimitOpt, clampOpt]
    rcases le_or_lt mn x with hle | hgt
    · rw [if_neg (not_lt.mpr hle), max_eq_right hle]
    · rw [if_pos hgt, max_eq_left (le_of_lt hgt)]
  · have hmm : mn ≤ mx := h mn mx hmn hmx
    simp only [LimitOpt, clampOpt]
    rcases lt_or_le mx x with hgt | hle
    · rw [if_pos hgt, min_eq_left]
      exact le_max_of_le_right (le_of_lt hgt)
    · rw [if_neg (not_lt.mpr hle)]
      rcases lt_or_le x mn with hlt | hge
      · rw [if_pos hlt, max_eq_left (le_of_lt hlt), min_eq_right hmm]
      · rw [if_neg (not_lt.mpr hge), max_eq_right hge, min_eq_right hle]

theorem doCurrent_i_d_A (m : Motor) (cfg : Config) (pc : PositionConfig)
    (s : State) (i : Input) (dA qA : ℚ) (out : Control) :
    (doCurrent m cfg pc s i dA qA out).2.i_d_A =
      limitEitherCurrent cfg s.status.fet_temp_C dA := by
  unfold doCurrent doVoltageDQ
  split <;> rfl

theorem doPositionCommon_control_position (m : Motor) (cfg : Config)
    (pc : PositionConfig) (s : State) (i : Input) (mt ff vel : ℚ)
    (out : Control) (hp : m.poles ≠ 0) (cp : ℚ)
    (hnone : s.cmd.position = none)
    (hcp : s.status.control_position = some cp) :
    (doPositionCommon m cfg pc s i mt ff vel out).1.status.control_position =
      some (advanceControlPosition pc cp vel s.cmd.stop_position).1 := by
  simp only [doPositionCommon, hnone, hcp]
  rw [doCurrent_fst _ _ _ _ _ _ _ _ hp]

/-- C6: the control-position advance of `ISR_DoPositionCommon` agrees with
the claim's clamp/stop/zero-velocity description whenever the configured
position bounds are ordered; and with a seeded control position it is the
value `ISR_DoPositionCommon` stores. -/
theorem C6_control_position_advance :
    (∀ (pc : PositionConfig) (cp velocity : ℚ) (stop : Option ℚ),
       (∀ mn mx, pc.position_min = some mn → pc.position_max = some mx →
         mn ≤ mx) →
       advanceControlPosition pc cp velocity stop =
         advanceControlPositionSpec pc cp velocity stop) ∧
    (∀ (m : Motor) (cfg : Config) (pc : PositionConfig) (s : State) (i : Input)
       (mt ff vel : ℚ) (out : Control) (cp : ℚ),
       m.poles ≠ 0 → s.cmd.position = none →
       s.status.control_position = some cp →
       (doPositionCommon m cfg pc s i mt ff vel out).1.status.control_position =
         some (advanceControlPosition pc cp vel s.cmd.stop_position).1) := by
  constructor
  · intro pc cp velocity stop h
    unfold advanceControlPosition advanceControlPositionSpec
    rw [LimitOpt_eq_clampOpt _ _ _ h]
  · intro m cfg pc s i mt ff vel out cp hp hnone hcp
    exact doPositionCommon_control_position m cfg pc s i mt ff vel out hp cp
      hnone hcp

theorem C6_control_position_advance_witness :
    advanceControlPosition pcfg0 1 2 (some (3 / 2)) =
      advanceControlPositionSpec pcfg0 1 2 (some (3 / 2)) ∧
    (doPositionCommon motor0 cfg0 pcfg0
      { state0 with status := { status0 with control_position := some 1 } }
      input0 10 0 2 Control.clear).1.status.control_position =
      some (advanceControlPosition pcfg0 1 2
        { state0 with
          status := { status0 with control_position := some 1 } }.cmd.stop_position).1 :=
  ⟨C6_control_position_advance.1 pcfg0 1 2 (some (3 / 2))
      (fun mn mx h _ => Option.noConfusion h),
   C6_control_position_advance.2 motor0 cfg0 pcfg0
      { state0 with status := { status0 with control_position := some 1 } }
      input0 10 0 2 Control.clear 1 (by norm_num [motor0]) rfl rfl⟩


theorem derateCeil (mc dc frac : ℚ) (h0 : 0 ≤ dc) (h1 : dc ≤ mc) :
    (frac ≤ 0 → min mc (max 0 (frac * (dc - mc) + mc)) = mc) ∧
    (0 ≤ frac → frac ≤ 1 →
      min mc (max 0 (frac * (dc - mc) + mc)) = frac * (dc - mc) + mc) ∧
    (1 ≤ frac → min mc (max 0 (frac * (dc - mc) + mc)) = max 0 (frac * (dc - mc) + mc)) ∧
    (0 ≤ min mc (max 0 (frac * (dc - mc) + mc)) ∧
      min mc (max 0 (frac * (dc - mc) + mc)) ≤ mc) := by
  have hmc : 0 ≤ mc := le_trans h0 h1
  refine ⟨?_, ?_, ?_, le_min hmc (le_max_left 0 _), min_le_left _ _⟩
  · intro hle
    have hge : mc ≤ frac * (dc - mc) + mc := by
      nlinarith [mul_nonneg (neg_nonneg.mpr hle) (sub_nonneg.mpr h1)]
    rw [max_eq_right (le_trans hmc hge), min_eq_left hge]
  · intro hge hle
    have hv1 : dc ≤ frac * (dc - mc) + mc := by
      nlinarith [mul_nonneg (sub_nonneg.mpr hle) (sub_nonneg.mpr h1)]
    have hv2 : frac * (dc - mc) + mc ≤ mc := by
      nlinarith [mul_nonneg hge (sub_nonneg.mpr h1)]
    rw [max_eq_right (le_trans h0 hv1), min_eq_right hv2]
  · intro hge
    have hv2 : frac * (dc - mc) + mc ≤ dc := by
      nlinarith [mul_nonneg (sub_nonneg.mpr hge) (sub_nonneg.mpr h1)]
    exact min_eq_right (max_le hmc (le_trans hv2 h1))

theorem doCurrent_i_q_A (m : Motor) (cfg : Config) (pc : PositionConfig)
    (s : State) (i : Input) (dA qA : ℚ) (out : Control) :
    (doCurrent m cfg pc s i dA qA out).2.i_q_A =
      limitEitherCurrent cfg s.status.fet_temp_C
        (limitQCurrent cfg pc s.status.unwrapped_position qA) := by
  unfold doCurrent doVoltageDQ
  split <;> rfl

theorem limitEitherCurrent_abs_le (cfg : Config) (fetT x : ℚ)
    (hL : 0 ≤ tempLimitA cfg fetT) :
    |limitEitherCurrent cfg fetT x| ≤ tempLimitA cfg fetT := by
  unfold limitEitherCurrent Limit
  split
  next hv => rw [abs_of_nonneg hL]
  next hv =>
    split
    next hv2 => rw [abs_neg, abs_of_nonneg hL]
    next hv2 => exact abs_le.mpr ⟨not_lt.mp hv2, not_lt.mp hv⟩

/-- C7 (corrected): the thermal-derate ceiling `tempLimitA` equals
`max_current_A` when the derate fraction is at most 0, interpolates
linearly for a fraction between 0 and 1 (hence equals `derate_current_A`
exactly at fraction 1), but past fraction 1 it KEEPS following the linear
ramp clipped below at 0 instead of plateauing at `derate_current_A`; it is
always inside `[0, max_current_A]`, both axis setpoints pass through
`limit_either_current`, and every limited setpoint is at most the ceiling
in absolute value. -/
theorem C7_thermal_derate_ceiling (cfg : Config) (fetT : ℚ)
    (h0 : 0 ≤ cfg.derate_current_A)
    (h1 : cfg.derate_current_A ≤ cfg.max_current_A)
    (h2 : cfg.derate_temperature < cfg.fault_temperature) :
    ((fetT - cfg.derate_temperature) /
        (cfg.fault_temperature - cfg.derate_temperature) ≤ 0 →
      tempLimitA cfg fetT = cfg.max_current_A) ∧
    (0 ≤ (fetT - cfg.derate_temperature) /
        (cfg.fault_temperature - cfg.derate_temperature) →
      (fetT - cfg.derate_temperature) /
        (cfg.fault_temperature - cfg.derate_temperature) ≤ 1 →
      tempLimitA cfg fetT =
        (fetT - cfg.derate_temperature) /
            (cfg.fault_temperature - cfg.derate_temperature) *
          (cfg.derate_current_A - cfg.max_current_A) + cfg.max_current_A) ∧
    (1 ≤ (fetT - cfg.derate_temperature) /
        (cfg.fault_temperature - cfg.derate_temperature) →
      tempLimitA cfg fetT =
        max 0 ((fetT - cfg.derate_temperature) /
            (cfg.fault_temperature - cfg.derate_temperature) *
          (cfg.derate_current_A - cfg.max_current_A) + cfg.max_current_A)) ∧
    (0 ≤ tempLimitA cfg fetT ∧ tempLimitA cfg fetT ≤ cfg.max_current_A) ∧
    (∀ (m : Motor) (pc : PositionConfig) (s : State) (i : Input)
        (dA qA : ℚ) (out : Control),
      (doCurrent m cfg pc s i dA qA out).2.i_d_A =
          limitEitherCurrent cfg s.status.fet_temp_C dA ∧
        (doCurrent m cfg pc s i dA qA out).2.i_q_A =
          limitEitherCurrent cfg s.status.fet_temp_C
            (limitQCurrent cfg pc s.status.unwrapped_position qA)) ∧
    (∀ x : ℚ, |limitEitherCurrent cfg fetT x| ≤ tempLimitA cfg fetT) := by
  have h := derateCeil cfg.max_current_A cfg.derate_current_A
    ((fetT - cfg.derate_temperature) /
      (cfg.fault_temperature - cfg.derate_temperature)) h0 h1
  have htl : tempLimitA cfg fetT =
      min cfg.max_current_A
        (max 0 ((fetT - cfg.derate_temperature) /
            (cfg.fault_temperature - cfg.derate_temperature) *
          (cfg.derate_current_A - cfg.max_current_A) + cfg.max_current_A)) := rfl
  rw [htl]
  refine ⟨h.1, h.2.1, h.2.2.1, h.2.2.2, ?_, ?_⟩
  · intro m pc s i dA qA out
    exact ⟨doCurrent_i_d_A m cfg pc s i dA qA out,
      doCurrent_i_q_A m cfg pc s i dA qA out⟩
  · intro x
    have := limitEitherCurrent_abs_le cfg fetT x (htl ▸ h.2.2.2.1)
    rwa [htl] at this

/-- A configuration whose derate window makes the fet temperature 80
correspond to derate fraction 2. -/
def cfgC7 : Config :=
  { cfg0 with
    max_current_A := 10
    derate_current_A := 4
    derate_temperature := 40
    fault_temperature := 60 }

/-- C7 counterexample: at derate fraction 2 (at least 1) the ceiling is 0,
not the claimed `derate_current_A = 4`, and a requested q current of 4 is
clipped all the way to 0. -/
theorem C7_counterexample :
    (80 - cfgC7.derate_temperature) /
        (cfgC7.fault_temperature - cfgC7.derate_temperature) = 2 ∧
    cfgC7.derate_current_A = 4 ∧
    tempLimitA cfgC7 80 = 0 ∧
    tempLimitA cfgC7 80 ≠ cfgC7.derate_current_A ∧
    limitEitherCurrent cfgC7 80 4 = 0 := by
  refine ⟨by norm_num [cfgC7, cfg0], rfl, ?_, ?_, ?_⟩ <;>
    norm_num [tempLimitA, limitEitherCurrent, Limit, cfgC7, cfg0]

theorem C7_thermal_derate_ceiling_witness :
    (0 : ℚ) ≤ cfg0.derate_current_A ∧
    cfg0.derate_current_A ≤ cfg0.max_current_A ∧
    cfg0.derate_temperature < cfg0.fault_temperature ∧
    tempLimitA cfg0 30 = cfg0.max_current_A ∧
    tempLimitA cfg0 50 =
      (50 - cfg0.derate_temperature) /
          (cfg0.fault_temperature - cfg0.derate_temperature) *
        (cfg0.derate_current_A - cfg0.max_current_A) + cfg0.max_current_A ∧
    |limitEitherCurrent cfg0 30 5| ≤ tempLimitA cfg0 30 :=
  ⟨by norm_num [cfg0], by norm_num [cfg0], by norm_num [cfg0],
   (C7_thermal_derate_ceiling cfg0 30 (by norm_num [cfg0]) (by norm_num [cfg0])
       (by norm_num [cfg0])).1 (by norm_num [cfg0]),
   (C7_thermal_derate_ceiling cfg0 50 (by norm_num [cfg0]) (by norm_num [cfg0])
       (by norm_num [cfg0])).2.1 (by norm_num [cfg0]) (by norm_num [cfg0]),
   (C7_thermal_derate_ceiling cfg0 30 (by norm_num [cfg0]) (by norm_num [cfg0])
       (by norm_num [cfg0])).2.2.2.2.2 5⟩

theorem doPositionCommon_i_d_A (m : Motor) (cfg : Config) (pc : PositionConfig)
    (s : State) (i : Input) (mt ff vel : ℚ) (out : Control) :
    (doPositionCommon m cfg pc s i mt ff vel out).2.i_d_A =
      limitEitherCurrent cfg s.status.fet_temp_C
        (fluxBrakeDA cfg (s.status.filt_1ms_bus_V.getD 0)) := by
  simp only [doPositionCommon]
  rw [doCurrent_i_d_A]

/-- C8 (corrected): when `flux_brake_min_voltage` is positive the flux-brake
d-axis current is `max(0, filt_1ms_bus_V - flux_brake_min_voltage) /
flux_brake_resistance_ohm` as claimed, but when it is zero or negative the
code returns 0 outright rather than that formula; the value
`ISR_DoPositionCommon` actually commands on the d axis is this current put
through `limit_either_current`. -/
theorem C8_flux_brake_current :
    (∀ (cfg : Config) (filt : ℚ), 0 < cfg.flux_brake_min_voltage →
      fluxBrakeDA cfg filt =
        max 0 (filt - cfg.flux_brake_min_voltage) / cfg.flux_brake_resistance_ohm) ∧
    (∀ (cfg : Config) (filt : ℚ), cfg.flux_brake_min_voltage ≤ 0 →
      fluxBrakeDA cfg filt = 0) ∧
    (∀ (m : Motor) (cfg : Config) (pc : PositionConfig) (s : State) (i : Input)
        (mt ff vel : ℚ) (out : Control),
      (doPositionCommon m cfg pc s i mt ff vel out).2.i_d_A =
        limitEitherCurrent cfg s.status.fet_temp_C
          (fluxBrakeDA cfg (s.status.filt_1ms_bus_V.getD 0))) := by
  refine ⟨?_, ?_, ?_⟩
  · intro cfg filt h
    unfold fluxBrakeDA
    rw [if_neg (not_le.mpr h)]
    rcases le_or_lt (filt - cfg.flux_brake_min_voltage) 0 with herr | herr
    · rw [if_pos herr, max_eq_left herr, zero_div]
    · rw [if_neg (not_le.mpr herr), max_eq_right (le_of_lt herr)]
  · intro cfg filt h
    unfold fluxBrakeDA
    rw [if_pos h]
  · intro m cfg pc s i mt ff vel out
    exact doPositionCommon_i_d_A m cfg pc s i mt ff vel out

/-- A configuration with the flux brake disabled
(`flux_brake_min_voltage = 0`) and unit brake resistance. -/
def cfgC8 : Config :=
  { cfg0 with flux_brake_min_voltage := 0, flux_brake_resistance_ohm := 1 }

def stateC8 : State :=
  { statePos with status :=
    { statePos.status with filt_1ms_bus_V := some 10 } }

/-- C8 counterexample: with `flux_brake_min_voltage = 0` and a filtered bus
voltage of 10 V the claimed formula gives 10 A, but the code commands 0 A
on the d axis. -/
theorem C8_counterexample :
    (doPositionCommon motor0 cfgC8 pcfg0 stateC8 input0 1 0 0
        Control.clear).2.i_d_A = 0 ∧
    max 0 ((10 : ℚ) - cfgC8.flux_brake_min_voltage) /
        cfgC8.flux_brake_resistance_ohm = 10 ∧
    (0 : ℚ) ≠ 10 := by
  refine ⟨?_, by norm_num [cfgC8, cfg0], by norm_num⟩
  rw [doPositionCommon_i_d_A]
  norm_num [stateC8, statePos, status0, fluxBrakeDA, cfgC8, cfg0,
    limitEitherCurrent, tempLimitA, Limit]

theorem C8_flux_brake_current_witness :
    (0 : ℚ) < cfg0.flux_brake_min_voltage ∧
    fluxBrakeDA cfg0 36 =
      max 0 (36 - cfg0.flux_brake_min_voltage) / cfg0.flux_brake_resistance_ohm ∧
    cfgC8.flux_brake_min_voltage ≤ 0 ∧
    fluxBrakeDA cfgC8 10 = 0 :=
  ⟨by norm_num [cfg0], C8_flux_brake_current.1 cfg0 36 (by norm_num [cfg0]),
   by norm_num [cfgC8, cfg0], C8_flux_brake_current.2.1 cfgC8 10 (by norm_num [cfgC8, cfg0])⟩


theorem doVoltageDQ_unwrapped (m : Motor) (cfg : Config) (s : State) (i : Input)
    (dV qV : ℚ) (out : Control) :
    (doVoltageDQ m cfg s i dV qV out).1.status.unwrapped_position_raw =
      s.status.unwrapped_position_raw := by
  unfold doVoltageDQ; split <;> rfl

theorem doCurrent_unwrapped (m : Motor) (cfg : Config) (pc : PositionConfig)
    (s : State) (i : Input) (dA qA : ℚ) (out : Control) :
    (doCurrent m cfg pc s i dA qA out).1.status.unwrapped_position_raw =
      s.status.unwrapped_position_raw := by
  unfold doCurrent
  exact doVoltageDQ_unwrapped _ _ _ _ _ _ _

theorem doPositionCommon_unwrapped (m : Motor) (cfg : Config) (pc : PositionConfig)
    (s : State) (i : Input) (mt ff vel : ℚ) (out : Control) :
    (doPositionCommon m cfg pc s i mt ff vel out).1.status.unwrapped_position_raw =
      s.status.unwrapped_position_raw := by
  simp only [doPositionCommon]
  split <;> rw [doCurrent_unwrapped]

theorem doStayWithinBounds_unwrapped (m : Motor) (cfg : Config) (pc : PositionConfig)
    (s : State) (i : Input) (out : Control) :
    (doStayWithinBounds m cfg pc s i out).1.status.unwrapped_position_raw =
      s.status.unwrapped_position_raw := by
  simp only [doStayWithinBounds]
  split
  · rw [doCurrent_unwrapped]
  · rw [doPositionCommon_unwrapped]

theorem maybeChangeMode_unwrapped (pc : PositionConfig) (s : State) (out : Control) :
    (maybeChangeMode pc s out).1.status.unwrapped_position_raw =
      s.status.unwrapped_position_raw := by
  unfold maybeChangeMode startCalibrating clearPidAlways
  repeat' split
  all_goals rfl

theorem modeChangeStep_unwrapped (pc : PositionConfig) (s : State) (out : Control) :
    (modeChangeStep pc s out).1.status.unwrapped_position_raw =
      s.status.unwrapped_position_raw := by
  unfold modeChangeStep
  split
  · exact maybeChangeMode_unwrapped _ _ _
  · rfl

theorem dispatch_unwrapped (m : Motor) (cfg : Config) (pc : PositionConfig)
    (s : State) (i : Input) (out : Control) :
    (dispatch m cfg pc s i out).1.status.unwrapped_position_raw =
      s.status.unwrapped_position_raw := by
  unfold dispatch
  split
  all_goals first
    | rfl
    | rw [doVoltageDQ_unwrapped]
    | rw [doCurrent_unwrapped]
    | rw [doPositionCommon_unwrapped]
    | rw [doStayWithinBounds_unwrapped]
    | (simp only [doCalibrating]; repeat' (first | rfl | split))

theorem setPositionStep_unwrapped_none (s : State)
    (hsp : s.cmd.set_position = none) :
    (setPositionStep s).status.unwrapped_position_raw =
      s.status.unwrapped_position_raw := by
  simp [setPositionStep, hsp]

theorem setPositionStep_unwrapped_some (s : State) (sp : ℚ)
    (hsp : s.cmd.set_position = some sp) :
    (setPositionStep s).status.unwrapped_position_raw =
      truncToward (sp * 65536) := by
  simp [setPositionStep, hsp]

theorem doControl_unwrapped (m : Motor) (cfg : Config) (pc : PositionConfig)
    (s : State) (i : Input) (hsp : s.cmd.set_position = none) :
    (doControl m cfg pc s i).1.status.unwrapped_position_raw =
      s.status.unwrapped_position_raw := by
  simp only [doControl]
  rw [dispatch_unwrapped]
  exact (modeChangeStep_unwrapped pc (timeoutDecStep (setPositionStep s))
    Control.clear).trans (setPositionStep_unwrapped_none s hsp)

theorem doControl_unwrapped_set (m : Motor) (cfg : Config) (pc : PositionConfig)
    (s : State) (i : Input) (sp : ℚ) (hsp : s.cmd.set_position = some sp) :
    (doControl m cfg pc s i).1.status.unwrapped_position_raw =
      truncToward (sp * 65536) := by
  simp only [doControl]
  rw [dispatch_unwrapped]
  exact (modeChangeStep_unwrapped pc (timeoutDecStep (setPositionStep s))
    Control.clear).trans (setPositionStep_unwrapped_some s sp hsp)

theorem doSense_unwrapped (m : Motor) (s : State) (i : Input)
    (hrz : s.cmd.rezero_position = none)
    (hpts : s.status.position_to_set = none ∨ ¬ s.startup_count > 10) :
    (doSense m s i).status.unwrapped_position_raw =
      s.status.unwrapped_position_raw + senseDelta m s i := by
  rcases hpts with h | h
  · simp [doSense, hrz, h, senseDelta]
  · simp [doSense, hrz, h, senseDelta]

theorem tick_unwrapped (m : Motor) (cfg : Config) (pc : PositionConfig)
    (s : State) (i : Input) (hin : i.newCmd = none)
    (hsp : s.cmd.set_position = none)
    (hrz : s.cmd.rezero_position = none)
    (hpts : s.status.position_to_set = none ∨ ¬ s.startup_count > 10) :
    (tick m cfg pc s i).1.status.unwrapped_position_raw =
      s.status.unwrapped_position_raw + senseDelta m s i := by
  simp only [tick, hin]
  rw [doControl_unwrapped m cfg pc (calcCurrentState m cfg (doSense m s i) i) i hsp]
  exact doSense_unwrapped m s i hrz hpts

theorem tick_unwrapped_set (m : Motor) (cfg : Config) (pc : PositionConfig)
    (s : State) (i : Input) (sp : ℚ) (hin : i.newCmd = none)
    (hsp : s.cmd.set_position = some sp) :
    (tick m cfg pc s i).1.status.unwrapped_position_raw =
      truncToward (sp * 65536) := by
  simp only [tick, hin]
  exact doControl_unwrapped_set m cfg pc _ i sp hsp

/-- C5 (corrected): when no `set_position` command is consumed (and no
rezero fires), the delta-accumulation tick preserves the congruence of
`unwrapped_position_raw` with the observed position modulo 65536; the
`set_position` path however writes `trunc(set_position * 65536)` from the
commanded value alone, ignoring the encoder, so the congruence is NOT an
invariant of every update as claimed. -/
theorem C5_unwrapped_position_congruence (m : Motor) (cfg : Config)
    (pc : PositionConfig) (s : State) (i : Input)
    (hin : i.newCmd = none)
    (hsp : s.cmd.set_position = none)
    (hrz : s.cmd.rezero_position = none)
    (hpts : s.status.position_to_set = none ∨ ¬ s.startup_count > 10)
    (hcong : s.status.unwrapped_position_raw % 65536 =
      (s.status.position : ℤ) % 65536) :
    (tick m cfg pc s i).1.status.unwrapped_position_raw % 65536 =
      ((tick m cfg pc s i).1.status.position : ℤ) % 65536 := by
  rw [tick_unwrapped m cfg pc s i hin hsp hrz hpts, tick_position m cfg pc s i]
  unfold senseDelta i16
  omega

theorem C5_unwrapped_position_congruence_witness :
    state0.cmd.set_position = none ∧
    (tick motor0 cfg0 pcfg0 state0 input0).1.status.unwrapped_position_raw %
        65536 =
      ((tick motor0 cfg0 pcfg0 state0 input0).1.status.position : ℤ) % 65536 :=
  ⟨rfl, C5_unwrapped_position_congruence motor0 cfg0 pcfg0 state0 input0
    rfl rfl rfl (Or.inl rfl) (by decide)⟩

def stateC5 : State :=
  { state0 with cmd := { cmd0 with set_position := some (1 / 2) } }

/-- C5 counterexample: consuming `set_position = 0.5` writes
`unwrapped_position_raw = 32768` while the observed encoder position is 0,
so the claimed congruence fails on that tick. -/
theorem C5_counterexample :
    (tick motor0 cfg0 pcfg0 stateC5 input0).1.status.unwrapped_position_raw =
      32768 ∧
    (tick motor0 cfg0 pcfg0 stateC5 input0).1.status.position = 0 ∧
    (32768 : ℤ) % 65536 ≠ ((0 : ℕ) : ℤ) % 65536 := by
  refine ⟨?_, ?_, by decide⟩
  · rw [tick_unwrapped_set motor0 cfg0 pcfg0 stateC5 input0 (1 / 2) rfl rfl]
    rw [show ((1 : ℚ) / 2) * 65536 = ((32768 : ℤ) : ℚ) by norm_num]
    simp [truncToward]
  · rw [tick_position]
    decide


theorem modeChangeStep_eq (pc : PositionConfig) (s : State) (out : Control)
    (hmc : s.cmd.mode = s.status.mode) :
    modeChangeStep pc s out = (s, out) := by
  unfold modeChangeStep
  rw [if_neg (not_ne_iff.mpr hmc)]

theorem dispatch_eq_kFault (m : Motor) (cfg : Config) (pc : PositionConfig)
    (s : State) (i : Input) (out : Control) (h : s.status.mode = Mode.kFault) :
    dispatch m cfg pc s i out = (s, doFault out) := by
  unfold dispatch
  split <;> simp_all

theorem persistentFaultMF_trigger (cfg : Config) (i : Input) (mode : Mode)
    (fault : Errc) (busV fetT : ℚ)
    (h1 : mode ≠ Mode.kStopped) (h2 : mode ≠ Mode.kFault)
    (ht : i.driverFault = true ∨ busV > cfg.max_voltage ∨
      fetT > cfg.fault_temperature) :
    persistentFaultMF cfg i mode fault busV fetT =
      (Mode.kFault,
        if fetT > cfg.fault_temperature then Errc.kOverTemperature
        else if busV > cfg.max_voltage then Errc.kOverVoltage
        else Errc.kMotorDriverFault) := by
  unfold persistentFaultMF
  rw [if_pos ⟨h1, h2⟩]
  by_cases hf : fetT > cfg.fault_temperature
  · simp [hf]
  · by_cases hv : busV > cfg.max_voltage
    · simp [hf, hv]
    · have hd : i.driverFault = true := by tauto
      simp [hf, hv, hd]

theorem doControl_persistent (m : Motor) (cfg : Config) (pc : PositionConfig)
    (u : State) (i : Input)
    (hmc : u.cmd.mode = u.status.mode)
    (h1 : u.status.mode ≠ Mode.kStopped) (h2 : u.status.mode ≠ Mode.kFault)
    (ht : i.driverFault = true ∨ u.status.bus_V > cfg.max_voltage ∨
      u.status.fet_temp_C > cfg.fault_temperature) :
    (doControl m cfg pc u i).1.status.mode = Mode.kFault ∧
    (doControl m cfg pc u i).1.status.fault =
      (if u.status.fet_temp_C > cfg.fault_temperature then Errc.kOverTemperature
       else if u.status.bus_V > cfg.max_voltage then Errc.kOverVoltage
       else Errc.kMotorDriverFault) ∧
    (doControl m cfg pc u i).2.zeroed = true ∧
    (doControl m cfg pc u i).2.power = some false ∧
    (doControl m cfg pc u i).2.pwm = none := by
  have hms : modeChangeStep pc (timeoutDecStep (setPositionStep u)) Control.clear
      = (timeoutDecStep (setPositionStep u), Control.clear) :=
    modeChangeStep_eq pc (timeoutDecStep (setPositionStep u)) Control.clear hmc
  have hpf : (persistentFaultStep cfg i
        (timeoutDecStep (setPositionStep u))).status.mode = Mode.kFault ∧
      (persistentFaultStep cfg i
        (timeoutDecStep (setPositionStep u))).status.fault =
        (if u.status.fet_temp_C > cfg.fault_temperature then Errc.kOverTemperature
         else if u.status.bus_V > cfg.max_voltage then Errc.kOverVoltage
         else Errc.kMotorDriverFault) := by
    constructor
    · show (persistentFaultMF cfg i u.status.mode u.status.fault u.status.bus_V
        u.status.fet_temp_C).1 = Mode.kFault
      rw [persistentFaultMF_trigger cfg i u.status.mode u.status.fault
        u.status.bus_V u.status.fet_temp_C h1 h2 ht]
    · show (persistentFaultMF cfg i u.status.mode u.status.fault u.status.bus_V
        u.status.fet_temp_C).2 =
        (if u.status.fet_temp_C > cfg.fault_temperature then Errc.kOverTemperature
         else if u.status.bus_V > cfg.max_voltage then Errc.kOverVoltage
         else Errc.kMotorDriverFault)
      rw [persistentFaultMF_trigger cfg i u.status.mode u.status.fault
        u.status.bus_V u.status.fet_temp_C h1 h2 ht]
  have hS2 : (faultResetStep (clearPidIfStep (positionTimeoutStep
        (persistentFaultStep cfg i
          (timeoutDecStep (setPositionStep u)))))).status.mode = Mode.kFault := by
    show (positionTimeoutStep (persistentFaultStep cfg i
      (timeoutDecStep (setPositionStep u)))).status.mode = Mode.kFault
    simp [positionTimeoutStep, hpf.1]
  have hS2F : (faultResetStep (clearPidIfStep (positionTimeoutStep
        (persistentFaultStep cfg i
          (timeoutDecStep (setPositionStep u)))))).status.fault =
        (if u.status.fet_temp_C > cfg.fault_temperature then Errc.kOverTemperature
         else if u.status.bus_V > cfg.max_voltage then Errc.kOverVoltage
         else Errc.kMotorDriverFault) := by
    have hm2 : (positionTimeoutStep (persistentFaultStep cfg i
        (timeoutDecStep (setPositionStep u)))).status.mode = Mode.kFault := hS2
    have hf2 : (positionTimeoutStep (persistentFaultStep cfg i
        (timeoutDecStep (setPositionStep u)))).status.fault =
        (if u.status.fet_temp_C > cfg.fault_temperature then Errc.kOverTemperature
         else if u.status.bus_V > cfg.max_voltage then Errc.kOverVoltage
         else Errc.kMotorDriverFault) := hpf.2
    show (faultResetStep (clearPidIfStep (positionTimeoutStep
      (persistentFaultStep cfg i (timeoutDecStep (setPositionStep u)))))).status.fault =
      (if u.status.fet_temp_C > cfg.fault_temperature then Errc.kOverTemperature
       else if u.status.bus_V > cfg.max_voltage then Errc.kOverVoltage
       else Errc.kMotorDriverFault)
    simp [faultResetStep, clearPidIfStep, hm2, hf2]
  simp only [doControl, hms]
  rw [dispatch_eq_kFault m cfg pc _ i Control.clear hS2]
  exact ⟨hS2, hS2F, rfl, rfl, rfl⟩

theorem tick_persistentFault (m : Motor) (cfg : Config) (pc : PositionConfig)
    (s : State) (i : Input)
    (h1 : i.newCmd = none) (h2 : i.monitorHigh = false)
    (h3 : (senseDelta m s i).natAbs ≤ kMaxPositionDelta)
    (hmc : s.cmd.mode = s.status.mode)
    (hs1 : s.status.mode ≠ Mode.kStopped) (hs2 : s.status.mode ≠ Mode.kFault)
    (ht : i.driverFault = true ∨ busOf cfg i > cfg.max_voltage ∨
      i.fetTempC > cfg.fault_temperature) :
    (tick m cfg pc s i).1.status.mode = Mode.kFault ∧
    (tick m cfg pc s i).1.status.fault =
      (if i.fetTempC > cfg.fault_temperature then Errc.kOverTemperature
       else if busOf cfg i > cfg.max_voltage then Errc.kOverVoltage
       else Errc.kMotorDriverFault) ∧
    (tick m cfg pc s i).2.zeroed = true ∧
    (tick m cfg pc s i).2.power = some false ∧
    (tick m cfg pc s i).2.pwm = none := by
  have humode : (calcCurrentState m cfg (doSense m s i) i).status.mode =
      s.status.mode := doSense_mode m s i h2 h3
  have hmc2 : (calcCurrentState m cfg (doSense m s i) i).cmd.mode =
      (calcCurrentState m cfg (doSense m s i) i).status.mode := by
    rw [humode]; exact hmc
  have h := doControl_persistent m cfg pc
    (calcCurrentState m cfg (doSense m s i) i) i hmc2
    (humode ▸ hs1) (humode ▸ hs2) ht
  simp only [tick, h1]
  exact h

/-- C9 (corrected): when one or more of the persistent fault conditions
(driver fault, overvoltage, FET overtemperature) triggers on a tick, the
ISR enters `kFault` and the output is powered off with zeroed duties
(`pwm = none` is the absence of any CCR duty write; the zero write is the
separate `zeroed` effect) -- but `status.fault` receives the code of the
LAST condition in the check sequence that triggered (driver fault is
overwritten by overvoltage, which is overwritten by overtemperature), not
the first as claimed; only across ticks is the recorded code then sticky
while the command stays away from `kStopped`, because all three checks are
disabled in `kFault`. -/
theorem C9_fault_entry (m : Motor) (cfg : Config) (pc : PositionConfig)
    (s : State) (i : Input)
    (h1 : i.newCmd = none) (h2 : i.monitorHigh = false)
    (h3 : (senseDelta m s i).natAbs ≤ kMaxPositionDelta)
    (hmc : s.cmd.mode = s.status.mode)
    (hs1 : s.status.mode ≠ Mode.kStopped) (hs2 : s.status.mode ≠ Mode.kFault)
    (ht : i.driverFault = true ∨ busOf cfg i > cfg.max_voltage ∨
      i.fetTempC > cfg.fault_temperature) :
    (tick m cfg pc s i).1.status.mode = Mode.kFault ∧
    (tick m cfg pc s i).1.status.fault =
      (if i.fetTempC > cfg.fault_temperature then Errc.kOverTemperature
       else if busOf cfg i > cfg.max_voltage then Errc.kOverVoltage
       else Errc.kMotorDriverFault) ∧
    (tick m cfg pc s i).2.zeroed = true ∧
    (tick m cfg pc s i).2.power = some false ∧
    (tick m cfg pc s i).2.pwm = none ∧
    (∀ (t : State) (j : Input), t.status.mode = Mode.kFault →
      effCmdMode t j ≠ Mode.kStopped →
      (tick m cfg pc t j).1.status.fault = t.status.fault) := by
  have h := tick_persistentFault m cfg pc s i h1 h2 h3 hmc hs1 hs2 ht
  exact ⟨h.1, h.2.1, h.2.2.1, h.2.2.2.1, h.2.2.2.2,
    fun t j hmt hct => (tick_kFault m cfg pc t j hmt).2.2 hct⟩

def stateCur : State :=
  { state0 with
    status := { status0 with mode := Mode.kCurrent },
    cmd := { cmd0 with mode := Mode.kCurrent } }

def inputC9 : Input :=
  { input0 with driverFault := true, adcVoltage := 3500 }

/-- C9 counterexample: a tick on which both the driver fault (checked
first) and the overvoltage condition (checked second) trigger records
`kOverVoltage`, not the first triggering code `kMotorDriverFault`. -/
theorem C9_counterexample :
    inputC9.driverFault = true ∧
    busOf cfg0 inputC9 > cfg0.max_voltage ∧
    (tick motor0 cfg0 pcfg0 stateCur inputC9).1.status.fault =
      Errc.kOverVoltage ∧
    Errc.kOverVoltage ≠ Errc.kMotorDriverFault := by
  have h := tick_persistentFault motor0 cfg0 pcfg0 stateCur inputC9 rfl rfl
    (by rw [senseDelta_self motor0 stateCur inputC9 rfl]; norm_num)
    rfl (by decide) (by decide)
    (Or.inl rfl)
  refine ⟨rfl, by norm_num [busOf, inputC9, input0, cfg0], ?_, by decide⟩
  rw [h.2.1]
  norm_num [inputC9, input0, cfg0, busOf]

def inputC9b : Input := { input0 with fetTempC := 100 }

theorem C9_fault_entry_witness :
    (tick motor0 cfg0 pcfg0 stateCur inputC9b).1.status.mode = Mode.kFault ∧
    (tick motor0 cfg0 pcfg0 stateCur inputC9b).1.status.fault =
      Errc.kOverTemperature ∧
    (tick motor0 cfg0 pcfg0 stateCur inputC9b).2.power = some false := by
  have h := C9_fault_entry motor0 cfg0 pcfg0 stateCur inputC9b rfl rfl
    (by rw [senseDelta_self motor0 stateCur inputC9b rfl]; norm_num)
    rfl (by decide) (by decide)
    (Or.inr (Or.inr (by norm_num [inputC9b, input0, cfg0])))
  refine ⟨h.1, ?_, h.2.2.2.1⟩
  rw [h.2.1]
  norm_num [inputC9b, input0, cfg0]


theorem doVoltageDQ_torque (m : Motor) (cfg : Config) (s : State) (i : Input)
    (dV qV : ℚ) (out : Control) :
    (doVoltageDQ m cfg s i dV qV out).1.status.torque_Nm =
      s.status.torque_Nm := by
  unfold doVoltageDQ; split <;> rfl

theorem doCurrent_torque (m : Motor) (cfg : Config) (pc : PositionConfig)
    (s : State) (i : Input) (dA qA : ℚ) (out : Control) :
    (doCurrent m cfg pc s i dA qA out).1.status.torque_Nm =
      s.status.torque_Nm := by
  unfold doCurrent
  exact doVoltageDQ_torque _ _ _ _ _ _ _

theorem doPositionCommon_torque (m : Motor) (cfg : Config) (pc : PositionConfig)
    (s : State) (i : Input) (mt ff vel : ℚ) (out : Control) :
    (doPositionCommon m cfg pc s i mt ff vel out).1.status.torque_Nm =
      s.status.torque_Nm := by
  simp only [doPositionCommon]
  split <;> rw [doCurrent_torque]

theorem doStayWithinBounds_torque (m : Motor) (cfg : Config) (pc : PositionConfig)
    (s : State) (i : Input) (out : Control) :
    (doStayWithinBounds m cfg pc s i out).1.status.torque_Nm =
      s.status.torque_Nm := by
  simp only [doStayWithinBounds]
  split
  · rw [doCurrent_torque]
  · rw [doPositionCommon_torque]

theorem maybeChangeMode_torque (pc : PositionConfig) (s : State) (out : Control) :
    (maybeChangeMode pc s out).1.status.torque_Nm = s.status.torque_Nm := by
  unfold maybeChangeMode startCalibrating clearPidAlways
  repeat' split
  all_goals rfl

theorem modeChangeStep_torque (pc : PositionConfig) (s : State) (out : Control) :
    (modeChangeStep pc s out).1.status.torque_Nm = s.status.torque_Nm := by
  unfold modeChangeStep
  split
  · exact maybeChangeMode_torque _ _ _
  · rfl

theorem dispatch_torque (m : Motor) (cfg : Config) (pc : PositionConfig)
    (s : State) (i : Input) (out : Control) :
    (dispatch m cfg pc s i out).1.status.torque_Nm = s.status.torque_Nm := by
  unfold dispatch
  split
  all_goals first
    | rfl
    | rw [doVoltageDQ_torque]
    | rw [doCurrent_torque]
    | rw [doPositionCommon_torque]
    | rw [doStayWithinBounds_torque]
    | (simp only [doCalibrating]; repeat' (first | rfl | split))

theorem doControl_torque (m : Motor) (cfg : Config) (pc : PositionConfig)
    (s : State) (i : Input) :
    (doControl m cfg pc s i).1.status.torque_Nm = s.status.torque_Nm := by
  simp only [doControl]
  rw [dispatch_torque]
  exact modeChangeStep_torque _ _ _

theorem tick_torque (m : Motor) (cfg : Config) (pc : PositionConfig)
    (s : State) (i : Input) (hin : i.newCmd = none) :
    (tick m cfg pc s i).1.status.torque_Nm =
      (if torqueOn (doSense m s i).status.mode then
        currentToTorque cfg.torque_constant i.dq_q / m.unwrapped_position_scale
      else 0) := by
  simp only [tick, hin]
  rw [doControl_torque]
  rfl

/-- C10 (corrected): the `torque_on` gate for the published `torque_Nm` is
evaluated on the mode as of the SENSE stage of the tick, before
`ISR_DoControl` can change it; when that pre-control mode is one of the
non-torque modes the published estimate is exactly 0 for every measured
q-axis current, but a tick that only ENTERS `kFault` during its control
stage still publishes the torque computed from the measured current, so
the claim's gating on the tick's final mode does not hold. -/
theorem C10_torque_zero_in_non_torque_modes (m : Motor) (cfg : Config)
    (pc : PositionConfig) (s : State) (i : Input)
    (hin : i.newCmd = none)
    (hm : (doSense m s i).status.mode = Mode.kStopped ∨
      (doSense m s i).status.mode = Mode.kFault ∨
      (doSense m s i).status.mode = Mode.kEnabling ∨
      (doSense m s i).status.mode = Mode.kCalibrating ∨
      (doSense m s i).status.mode = Mode.kCalibrationComplete) :
    (tick m cfg pc s i).1.status.torque_Nm = 0 := by
  rw [tick_torque m cfg pc s i hin]
  have hoff : torqueOn (doSense m s i).status.mode = false := by
    rcases hm with h | h | h | h | h <;> rw [h] <;> rfl
  rw [hoff]
  simp

theorem C10_torque_zero_in_non_torque_modes_witness :
    (tick motor0 cfg0 pcfg0 state0 input0).1.status.torque_Nm = 0 :=
  C10_torque_zero_in_non_torque_modes motor0 cfg0 pcfg0 state0 input0 rfl
    (Or.inl (by
      rw [doSense_mode motor0 state0 input0 rfl
        (by rw [senseDelta_self motor0 state0 input0 rfl]; norm_num)]
      rfl))

def inputC10 : Input := { input0 with adcVoltage := 3500, dq_q := 1 }

/-- C10 counterexample: a tick that starts in `kCurrent`, measures a q-axis
current of 1 A and trips the overvoltage check ends the tick in `kFault`
yet publishes `torque_Nm = 0.1`, because the `torque_on` gate saw the
pre-control mode `kCurrent`. -/
theorem C10_counterexample :
    (tick motor0 cfg0 pcfg0 stateCur inputC10).1.status.mode = Mode.kFault ∧
    (tick motor0 cfg0 pcfg0 stateCur inputC10).1.status.torque_Nm = 1 / 10 ∧
    (1 / 10 : ℚ) ≠ 0 := by
  refine ⟨?_, ?_, by norm_num⟩
  · exact (tick_persistentFault motor0 cfg0 pcfg0 stateCur inputC10 rfl rfl
      (by rw [senseDelta_self motor0 stateCur inputC10 rfl]; norm_num)
      rfl (by decide) (by decide)
      (Or.inr (Or.inl (by norm_num [busOf, inputC10, input0, cfg0])))).1
  · rw [tick_torque motor0 cfg0 pcfg0 stateCur inputC10 rfl]
    have hm : (doSense motor0 stateCur inputC10).status.mode = Mode.kCurrent :=
      (doSense_mode motor0 stateCur inputC10 rfl
        (by rw [senseDelta_self motor0 stateCur inputC10 rfl]; norm_num)).trans rfl
    rw [hm]
    norm_num [torqueOn, currentToTorque, inputC10, input0, cfg0, motor0]

end BldcServoModel
